import Mathlib

/-!
The godcr UI components: password-creation modal and segmented switch.

A shallow embedding of

* `ui/modal/create_password_modal.go` (`CreatePasswordModal`),
* `ui/decredmaterial/switch.go` (`SwitchButtonText`, `Switch`), and
* `ui/preference/list_preference.go` (`ListPreferenceModal`),

followed by theorems about their per-frame interaction handlers.

Conventions of the embedding.

* A Go method with a pointer receiver becomes a function from the receiver's
  value to its new value (plus the returned value, if any).
* Calls that leave the component (`Dismiss`, the completion callback, the
  parent page's `OnNavigatedTo`) are recorded, in program order, in a list of
  `Effect`s returned next to the new state.
* What the GUI toolkit reports during one frame (button clicks, editor events,
  backdrop clicks) is an explicit input of the handler.
* A Go run-time panic (nil function call, index out of range) is `none`.
-/

namespace Godcr

/-! ## Shared toolkit types -/

/-- The Go type `color.NRGBA`: four 8-bit channels. The zero value is `NRGBA{}`. -/
structure NRGBA where
  R : Nat
  G : Nat
  B : Nat
  A : Nat
  deriving DecidableEq, Repr

/-- The zero value `color.NRGBA{}`. -/
def NRGBA.zero : NRGBA := ⟨0, 0, 0, 0⟩

/-- The fields of `Theme.Color` that the two components read. The theme is
supplied by the caller, so its colours are parameters of the model. -/
structure ThemeColor where
  Primary : NRGBA
  Gray3 : NRGBA
  Danger : NRGBA
  Surface : NRGBA
  SurfaceHighlight : NRGBA
  GrayText1 : NRGBA
  Text : NRGBA
  deriving DecidableEq, Repr

/-- Keys of the localisation table (`values.Str...`) used by the modal. -/
inductive StrKey
  | StrEnterWalletName
  | StrEnterSpendingPassword
  | StrConfirmSpendingPassword
  | StrPasswordNotMatch
  | StrWalletExist
  | StrSpendingPasswordInfo2
  deriving DecidableEq, Repr

/-- Everything the modal reads from outside its own file: the theme colours,
the localisation functions `values.String` and `values.StringF`, the sentinel
`dcrlibwallet.ErrExist` and the strength meter `computePasswordStrength`.
None of them is defined in the files under study, so each is a parameter. -/
structure Env where
  Color : ThemeColor
  valuesString : StrKey → String
  valuesStringF : StrKey → String → String
  ErrExist : String
  computePasswordStrength : String → Nat

/-! ## `CreatePasswordModal` -/

/-- A `decredmaterial.Editor`: the text of the wrapped `widget.Editor`, the
hint, and the text of its error label (written by `SetError`). -/
structure Editor where
  Text : String
  Hint : String
  errorLabel : String
  deriving DecidableEq, Repr

/-- The method `Editor.SetError`. -/
def Editor.SetError (e : Editor) (text : String) : Editor :=
  { e with errorLabel := text }

/-- The fields of `CreatePasswordModal`. `parentSet` is `cm.parent != nil`,
`modalDisabled` is the flag written by `Modal.SetDisabled`,
`btnPositveBackground` is `btnPositve.Background` and `btnNegativeEnabled`
is the flag written by `btnNegative.SetEnabled`. The callback field is passed
to `Handle` separately. -/
structure CreatePasswordModal where
  walletName : Editor
  passwordEditor : Editor
  confirmPasswordEditor : Editor
  passwordStrength : Nat
  isLoading : Bool
  isCancelable : Bool
  walletNameEnabled : Bool
  showWalletWarnInfo : Bool
  isEnabled : Bool
  dialogTitle : String
  serverError : String
  description : String
  parentSet : Bool
  modalDisabled : Bool
  btnPositveBackground : NRGBA
  btnNegativeEnabled : Bool
  deriving DecidableEq, Repr

/-- Calls that leave the modal, in the order `Handle` makes them. -/
inductive Effect
  | callback (walletName password : String)
  | Dismiss
  | parentOnNavigatedTo
  deriving DecidableEq, Repr

/-- The completion callback `func(walletName, password string, m) bool`. It
receives the modal and may change it through the pointer, so it returns the
modal it leaves behind next to its boolean result. -/
abbrev Callback := String → String → CreatePasswordModal → Bool × CreatePasswordModal

/-- What the toolkit reports to one call of `Handle`:
the pair returned by `decredmaterial.HandleEditorEvents` for the three
editors, the result of `btnPositve.Clicked()` and `btnNegative.Clicked()`, and
the result of `Modal.BackdropClicked` as a function of its argument. -/
structure HandleInput where
  isSubmit : Bool
  isChanged : Bool
  btnPositveClicked : Bool
  btnNegativeClicked : Bool
  BackdropClicked : Bool → Bool

/-- Modelled from the spec: the helper `editorsNotEmpty(editors ...)` is not in
the files under study; it is true when the text of every given editor differs
from the empty string. The argument is the list of the editors' texts. -/
def editorsNotEmpty (editors : List String) : Bool :=
  editors.all (fun text => text != "")

/-- The method `SetLoading`. -/
def CreatePasswordModal.SetLoading (cm : CreatePasswordModal) (loading : Bool) :
    CreatePasswordModal :=
  { cm with isLoading := loading, modalDisabled := loading }

/-- The method `SetError`. -/
def CreatePasswordModal.SetError (cm : CreatePasswordModal) (err : String) :
    CreatePasswordModal :=
  { cm with serverError := err }

/-- The method `passwordsMatch(editors ...)`; the variadic argument is the list
of the editors' texts. It writes the confirm editor's error label. -/
def CreatePasswordModal.passwordsMatch (env : Env) (cm : CreatePasswordModal)
    (editors : List String) : Bool × CreatePasswordModal :=
  match editors with
  | password :: matching :: _ =>
    if password != matching then
      (false, { cm with confirmPasswordEditor :=
        cm.confirmPasswordEditor.SetError (env.valuesString .StrPasswordNotMatch) })
    else
      (true, { cm with confirmPasswordEditor := cm.confirmPasswordEditor.SetError "" })
  | _ => (false, cm)

/-- The method `validToCreate`. -/
def CreatePasswordModal.validToCreate (env : Env) (cm : CreatePasswordModal) :
    Bool × CreatePasswordModal :=
  let nameValid :=
    if cm.walletNameEnabled then editorsNotEmpty [cm.walletName.Text] else true
  if nameValid && editorsNotEmpty [cm.passwordEditor.Text, cm.confirmPasswordEditor.Text] then
    cm.passwordsMatch env [cm.passwordEditor.Text, cm.confirmPasswordEditor.Text]
  else
    (false, cm)

/-- Lines 159-166 of `Handle`: the enabled state of the positive button. -/
def CreatePasswordModal.handleEnabled (env : Env) (cm : CreatePasswordModal) :
    CreatePasswordModal :=
  if editorsNotEmpty [cm.passwordEditor.Text] || editorsNotEmpty [cm.walletName.Text] ||
      editorsNotEmpty [cm.confirmPasswordEditor.Text] then
    { cm with btnPositveBackground := env.Color.Primary, isEnabled := true }
  else
    { cm with btnPositveBackground := env.Color.Gray3, isEnabled := false }

/-- Lines 168-175 of `Handle`: all modal errors are reset when an editor was
modified. -/
def CreatePasswordModal.handleChanged (inp : HandleInput) (cm : CreatePasswordModal) :
    CreatePasswordModal :=
  if inp.isChanged then
    { cm with
      serverError := ""
      walletName := cm.walletName.SetError ""
      passwordEditor := cm.passwordEditor.SetError ""
      confirmPasswordEditor := cm.confirmPasswordEditor.SetError "" }
  else cm

/-- How the submit block of `Handle` (lines 177-203) ends: `returned` is the
early `return` out of `Handle`, `fallThrough` continues with line 205. -/
inductive SubmitExit
  | returned
  | fallThrough
  deriving DecidableEq, Repr

/-- Lines 177-203 of `Handle`: validation and submission. The result is `none`
when the nil callback is called. -/
def CreatePasswordModal.handleSubmit (env : Env) (callback : Option Callback)
    (inp : HandleInput) (cm : CreatePasswordModal) :
    Option (CreatePasswordModal × List Effect × SubmitExit) :=
  if (inp.btnPositveClicked || inp.isSubmit) && cm.isEnabled then
    if cm.walletNameEnabled && !editorsNotEmpty [cm.walletName.Text] then
      some ({ cm with walletName :=
        cm.walletName.SetError (env.valuesString .StrEnterWalletName) }, [], .returned)
    else if !editorsNotEmpty [cm.passwordEditor.Text] then
      some ({ cm with passwordEditor :=
        cm.passwordEditor.SetError (env.valuesString .StrEnterSpendingPassword) }, [], .returned)
    else if !editorsNotEmpty [cm.confirmPasswordEditor.Text] then
      some ({ cm with confirmPasswordEditor :=
        cm.confirmPasswordEditor.SetError (env.valuesString .StrConfirmSpendingPassword) },
        [], .returned)
    else
      let matched := cm.passwordsMatch env [cm.passwordEditor.Text, cm.confirmPasswordEditor.Text]
      if matched.1 then
        let cm2 := matched.2.SetLoading true
        match callback with
        | none => none
        | some cb =>
          let dismiss := cb cm2.walletName.Text cm2.passwordEditor.Text cm2
          some (dismiss.2,
            Effect.callback cm2.walletName.Text cm2.passwordEditor.Text ::
              (if dismiss.1 then [Effect.Dismiss] else []),
            .fallThrough)
      else some (matched.2, [], .fallThrough)
  else
    some (cm, [], .fallThrough)

/-- Lines 205-221 of `Handle`: the negative button, the backdrop and the
strength meter. -/
def CreatePasswordModal.handleCancel (env : Env) (inp : HandleInput)
    (cm : CreatePasswordModal) : CreatePasswordModal × List Effect :=
  let cm1 := { cm with btnNegativeEnabled := !cm.isLoading }
  let negative : List Effect :=
    if inp.btnNegativeClicked then
      if !cm1.isLoading then
        (if cm1.parentSet then [Effect.parentOnNavigatedTo] else []) ++ [Effect.Dismiss]
      else []
    else []
  let backdrop : List Effect :=
    if inp.BackdropClicked cm1.isCancelable then
      if !cm1.isLoading then [Effect.Dismiss] else []
    else []
  ({ cm1 with passwordStrength := env.computePasswordStrength cm1.passwordEditor.Text },
    negative ++ backdrop)

/-- The method `Handle`: one interaction pass of the modal. -/
def CreatePasswordModal.Handle (env : Env) (callback : Option Callback)
    (inp : HandleInput) (cm : CreatePasswordModal) :
    Option (CreatePasswordModal × List Effect) :=
  match ((cm.handleEnabled env).handleChanged inp).handleSubmit env callback inp with
  | none => none
  | some (cm1, effects, .returned) => some (cm1, effects)
  | some (cm1, effects, .fallThrough) =>
    some ((cm1.handleCancel env inp).1, effects ++ (cm1.handleCancel env inp).2)

/-- The widgets that `Layout` hands to `Modal.Layout`, in order. A `body2` is
a `Theme.Body2` label; its colour is `none` while the label keeps the colour
the theme gave it and `some c` once `Layout` has overwritten it. The counter
under an editor shows the editor's length and is drawn only when its decimal
text differs from "0", that is `some n` with `n` non-zero. -/
inductive LayoutWidget
  | titleLayout (dialogTitle : String)
  | body2 (text : String) (color : Option NRGBA)
  | walletNameLayout (walletName : Editor)
  | passwordLayout (passwordEditor : Editor) (showWalletWarnInfo : Bool) (counter : Option Nat)
  | passwordStrengthLayout (progress : Nat)
  | confirmPasswordLayout (confirmPasswordEditor : Editor) (counter : Option Nat)
  | buttonsLayout (isLoading : Bool)
  deriving DecidableEq, Repr

/-- The length counter drawn under an editor: nothing for an empty editor. -/
def lengthCounter (text : String) : Option Nat :=
  if text.length = 0 then none else some text.length

/-- The method `Layout`: the modal it leaves behind and the widget list `w`.
The widget closures read the modal when `Modal.Layout` runs them, after the
whole list is built, so they show the modal as `Layout` leaves it. -/
def CreatePasswordModal.Layout (env : Env) (cm : CreatePasswordModal) :
    CreatePasswordModal × List LayoutWidget :=
  let w0 : List LayoutWidget := []
  let w1 := w0 ++ [.titleLayout cm.dialogTitle]
  let w2 := if cm.description != "" then w1 ++ [.body2 cm.description none] else w1
  let (cm1, w3) :=
    if cm.serverError != "" then
      if cm.serverError == env.ErrExist && cm.walletNameEnabled then
        ({ cm with walletName :=
            cm.walletName.SetError (env.valuesStringF .StrWalletExist cm.walletName.Text) }, w2)
      else
        (cm, w2 ++ [.body2 cm.serverError (some env.Color.Danger)])
    else (cm, w2)
  let w4 := if cm1.walletNameEnabled then w3 ++ [.walletNameLayout cm1.walletName] else w3
  let w5 := w4 ++ [.passwordLayout cm1.passwordEditor cm1.showWalletWarnInfo
    (lengthCounter cm1.passwordEditor.Text)]
  let w6 := w5 ++ [.passwordStrengthLayout cm1.passwordStrength]
  let w7 := w6 ++ [.confirmPasswordLayout cm1.confirmPasswordEditor
    (lengthCounter cm1.confirmPasswordEditor.Text)]
  let w8 := w7 ++ [.buttonsLayout cm1.isLoading]
  (cm1, w8)

/-- Whether a widget is the error banner: a `Body2` label whose colour `Layout`
has overwritten (with the theme's `Danger`). -/
def LayoutWidget.isBanner : LayoutWidget → Bool
  | .body2 _ (some _) => true
  | _ => false

/-! ## `SwitchButtonText` -/

/-- The fields of a `decredmaterial.Button` that the switch constructor and
the click handler write, and its label. -/
structure Button where
  Text : String
  Background : NRGBA
  Color : NRGBA
  HighlightColor : NRGBA
  TextSize : Nat
  deriving DecidableEq, Repr

/-- The type `SwitchItem`. -/
structure SwitchItem where
  Text : String
  button : Button
  deriving DecidableEq, Repr

/-- The zero value of `SwitchItem`, as produced by `make`. -/
def SwitchItem.zero : SwitchItem :=
  ⟨"", ⟨"", NRGBA.zero, NRGBA.zero, NRGBA.zero, 0⟩⟩

/-- The type `SwitchButtonText` (without the theme pointer). -/
structure SwitchButtonText where
  ActiveTextColor : NRGBA
  InactiveTextColor : NRGBA
  Active : NRGBA
  Inactive : NRGBA
  items : List SwitchItem
  selected : Nat
  changed : Bool
  deriving DecidableEq, Repr

/-- The part of `Theme` the switch constructor uses: the colours and the
button constructor `Theme.Button(text)`, which lives outside the files under
study and is therefore a parameter. -/
structure Theme where
  Color : ThemeColor
  Button : String → Button

/-- The body of the loop of `Theme.SwitchButtonText` for one input item. -/
def switchButton (t : Theme) (Inactive InactiveTextColor : NRGBA) (it : SwitchItem) :
    SwitchItem :=
  { it with button :=
      { t.Button it.Text with
        HighlightColor := t.Color.SurfaceHighlight
        Background := Inactive
        Color := InactiveTextColor
        TextSize := 14 } }

/-- The constructor `Theme.SwitchButtonText(i)`: a slice of `len(i)+1` items
whose element 0 keeps the zero value and whose element `index+1` is the input
item `index` with its freshly made button. -/
def Theme.SwitchButtonText (t : Theme) (i : List SwitchItem) : SwitchButtonText :=
  let Active := t.Color.Surface
  let Inactive := NRGBA.zero
  let ActiveTextColor := t.Color.GrayText1
  let InactiveTextColor := t.Color.Text
  let items := SwitchItem.zero :: i.map (switchButton t Inactive InactiveTextColor)
  { ActiveTextColor := ActiveTextColor
    InactiveTextColor := InactiveTextColor
    Active := Active
    Inactive := Inactive
    items := items
    selected := if items.length > 0 then 1 else 0
    changed := false }

/-- Writes the background and the text colour of the button of item `index`;
the slice is left as it is when `index` is out of range. -/
def setButtonColors (items : List SwitchItem) (index : Nat) (Background Color : NRGBA) :
    List SwitchItem :=
  match items[index]? with
  | some it =>
    items.set index { it with button := { it.button with Background := Background, Color := Color } }
  | none => items

/-- The body of the loop of `handleClickEvent` for one `index`; `clicked`
gives the result of `s.items[index].button.Clicked()` in this pass. -/
def SwitchButtonText.handleClickStep (clicked : Nat → Bool) (s : SwitchButtonText)
    (index : Nat) : SwitchButtonText :=
  let s1 :=
    if index != 0 then
      if clicked index then
        { s with changed := (if s.selected != index then true else s.changed), selected := index }
      else s
    else s
  if s1.selected == index then
    { s1 with items := setButtonColors s1.items s1.selected s1.Active s1.ActiveTextColor }
  else
    { s1 with items := setButtonColors s1.items index s1.Inactive s1.InactiveTextColor }

/-- The method `handleClickEvent`: one click pass over `range s.items`. -/
def SwitchButtonText.handleClickEvent (clicked : Nat → Bool) (s : SwitchButtonText) :
    SwitchButtonText :=
  (List.range s.items.length).foldl (SwitchButtonText.handleClickStep clicked) s

/-- The method `SelectedOption`; `none` is the index-out-of-range panic. -/
def SwitchButtonText.SelectedOption (s : SwitchButtonText) : Option String :=
  s.items[s.selected]?.map (fun it => it.Text)

/-- The method `SelectedIndex`. -/
def SwitchButtonText.SelectedIndex (s : SwitchButtonText) : Nat :=
  s.selected

/-- The method `Changed`: the returned flag and the switch it leaves behind. -/
def SwitchButtonText.Changed (s : SwitchButtonText) : Bool × SwitchButtonText :=
  (s.changed, { s with changed := false })

/-- The switch after a finite sequence of click passes, one `clicked` map per
pass, the first pass first. -/
def SwitchButtonText.handleClickEvents (passes : List (Nat → Bool)) (s : SwitchButtonText) :
    SwitchButtonText :=
  passes.foldl (fun st clicked => st.handleClickEvent clicked) s

/-! ## `Switch` -/

/-- The type `values.SwitchStyle`: the three colours of a switch. -/
structure SwitchStyle where
  ActiveColor : NRGBA
  InactiveColor : NRGBA
  ThumbColor : NRGBA
  deriving DecidableEq, Repr

/-- The part of `widget.Bool` that the switch reads and writes: `Value`. -/
structure WidgetBool where
  Value : Bool
  deriving DecidableEq, Repr

/-- The type `Switch`. -/
structure Switch where
  style : SwitchStyle
  disabled : Bool
  value : Bool
  changed : Bool
  clk : WidgetBool
  deriving DecidableEq, Repr

/-- What `Switch.Layout` reads from outside its file: the helper `Disabled`
of the `decredmaterial` package, which turns a colour into its disabled
variant, and the conversion `gtx.Dp` of the layout context. Neither is defined
in the files under study, so each is a parameter. -/
structure SwitchEnv where
  Disabled : NRGBA → NRGBA
  Dp : Nat → Int

/-- The constructor `Theme.Switch()`; `style` is `t.Styles.SwitchStyle`. -/
def Theme.Switch (style : SwitchStyle) : Switch :=
  { clk := ⟨false⟩, style := style, disabled := false, value := false, changed := false }

/-- The method `Switch.IsChecked`. -/
def Switch.IsChecked (s : Switch) : Bool :=
  s.clk.Value

/-- The method `Switch.SetChecked`. -/
def Switch.SetChecked (s : Switch) (value : Bool) : Switch :=
  { s with clk := { s.clk with Value := value } }

/-- The method `Switch.SetEnabled`. -/
def Switch.SetEnabled (s : Switch) (value : Bool) : Switch :=
  { s with disabled := value }

/-- What `Switch.Layout` draws: whether it draws into `gtx.Disabled()`, the
colour painted on the track, the colour of the thumb shadow, the colour of the
thumb, the vertical offset of the track, the horizontal offset of the thumb,
and the returned dimensions. -/
structure SwitchDrawing where
  contextDisabled : Bool
  trackColor : NRGBA
  shadowColor : NRGBA
  thumbColor : NRGBA
  trackOff : Int
  thumbOffsetX : Int
  dims : Int × Int
  deriving DecidableEq, Repr

/-- The method `Switch.Layout`, up to the click area. The quarter-pixel shift
of the thumb shadow is left out. -/
def Switch.Layout (env : SwitchEnv) (s : Switch) : SwitchDrawing :=
  let trackWidth := env.Dp 32
  let trackHeight := env.Dp 20
  let thumbSize := env.Dp 18
  let trackOff := (thumbSize - trackHeight).tdiv 2
  let colors : Bool × NRGBA × NRGBA × NRGBA :=
    if s.disabled then
      (true, env.Disabled s.style.ActiveColor, env.Disabled s.style.InactiveColor,
        env.Disabled s.style.ThumbColor)
    else
      (false, s.style.ActiveColor, s.style.InactiveColor, s.style.ThumbColor)
  let col := if s.IsChecked then colors.2.1 else colors.2.2.1
  { contextDisabled := colors.1
    trackColor := col
    shadowColor := col
    thumbColor := colors.2.2.2
    trackOff := trackOff
    thumbOffsetX := if s.IsChecked then trackWidth - thumbSize else 0
    dims := (trackWidth, thumbSize) }

/-! ## `ListPreferenceModal` -/

/-- The configuration store of the wallet as the modal sees it: the string
that `ReadStringConfigValueForKey` returns for each key, the empty string for
a key without a value. -/
abbrev ConfigStore := String → String

/-- The wallet call `ReadStringConfigValueForKey`. -/
def ConfigStore.ReadStringConfigValueForKey (w : ConfigStore) (key : String) : String :=
  w key

/-- The wallet call `SaveUserConfigValue`: afterwards `key` reads as `value`. -/
def ConfigStore.SaveUserConfigValue (w : ConfigStore) (key value : String) : ConfigStore :=
  fun k => if k = key then value else w k

/-- The part of `widget.Enum` that the modal reads and writes: `Value`. -/
structure WidgetEnum where
  Value : String
  deriving DecidableEq, Repr

/-- The fields of `ListPreferenceModal`. `items` lists the entries of the Go
map in the order in which `range` happens to visit them; `updateButtonClicked`
tells whether the function field of that name is non-nil. -/
structure ListPreferenceModal where
  optionsRadioGroup : WidgetEnum
  items : List (String × String)
  itemKeys : List String
  title : String
  preferenceKey : String
  defaultValue : String
  initialValue : String
  currentValue : String
  updateButtonClicked : Bool
  deriving DecidableEq, Repr

/-- Calls that leave the list-preference modal, in the order they are made. -/
inductive PreferenceEffect
  | SaveUserConfigValue (key value : String)
  | updateButtonClicked
  | RefreshTheme
  | Dismiss
  deriving DecidableEq, Repr

/-- What the toolkit reports to one call of `ListPreferenceModal.Handle`: how
many times in a row `optionsRadioGroup.Changed()` and
`cancelButton.Button.Clicked()` answer true before they answer false, and the
result of `Modal.BackdropClicked` as a function of its argument. -/
structure PreferenceInput where
  radioChanged : Nat
  cancelClicked : Nat
  BackdropClicked : Bool → Bool

/-- What `layoutItems` reads from outside its file: `values.String` on the
string keys held in the items map, and two theme colours. -/
structure PreferenceEnv where
  valuesString : String → String
  DeepBlue : NRGBA
  Primary : NRGBA

/-- The call `sort.Slice(sortedKeys, less)` with `less` the order `<` of
strings: the keys in ascending order. -/
def sortSlice (sortedKeys : List String) : List String :=
  sortedKeys.insertionSort (fun a b => a ≤ b)

/-- The constructor `NewListPreference`; the title and both values start out
as the zero value and no update function is set. -/
def NewListPreference (preferenceKey defaultValue : String) (items : List (String × String)) :
    ListPreferenceModal :=
  let sortedKeys := items.foldl (fun keys kv => keys ++ [kv.1]) []
  { optionsRadioGroup := ⟨""⟩
    items := items
    itemKeys := sortSlice sortedKeys
    title := ""
    preferenceKey := preferenceKey
    defaultValue := defaultValue
    initialValue := ""
    currentValue := ""
    updateButtonClicked := false }

/-- The method `OnResume`; the store is handed back as it was received. -/
def ListPreferenceModal.OnResume (w : ConfigStore) (lp : ListPreferenceModal) :
    ListPreferenceModal × ConfigStore :=
  let initialValue := w.ReadStringConfigValueForKey lp.preferenceKey
  let initialValue := if initialValue == "" then lp.defaultValue else initialValue
  let lp1 := { lp with initialValue := initialValue, currentValue := initialValue }
  ({ lp1 with optionsRadioGroup := { lp1.optionsRadioGroup with Value := lp1.currentValue } }, w)

/-- The method `Title`. -/
def ListPreferenceModal.Title (lp : ListPreferenceModal) (title : String) :
    ListPreferenceModal :=
  { lp with title := title }

/-- The method `UpdateValues`: a function is stored in `updateButtonClicked`. -/
def ListPreferenceModal.UpdateValues (lp : ListPreferenceModal) : ListPreferenceModal :=
  { lp with updateButtonClicked := true }

/-- The first loop of `Handle`, `for lp.optionsRadioGroup.Changed()`, run for
as many rounds as `Changed()` answers true. Calling the nil update function is
`none`. -/
def ListPreferenceModal.handleChanged :
    Nat → ConfigStore → ListPreferenceModal →
      Option (ListPreferenceModal × ConfigStore × List PreferenceEffect)
  | 0, w, lp => some (lp, w, [])
  | n + 1, w, lp =>
    let lp1 := { lp with currentValue := lp.optionsRadioGroup.Value }
    let w1 := w.SaveUserConfigValue lp1.preferenceKey lp1.optionsRadioGroup.Value
    if lp1.updateButtonClicked then
      match ListPreferenceModal.handleChanged n w1 lp1 with
      | none => none
      | some (lp2, w2, effects) =>
        some (lp2, w2,
          [PreferenceEffect.SaveUserConfigValue lp1.preferenceKey lp1.optionsRadioGroup.Value,
            PreferenceEffect.updateButtonClicked, PreferenceEffect.RefreshTheme,
            PreferenceEffect.Dismiss] ++ effects)
    else none

/-- The method `Handle` of the list-preference modal. -/
def ListPreferenceModal.Handle (inp : PreferenceInput) (w : ConfigStore)
    (lp : ListPreferenceModal) :
    Option (ListPreferenceModal × ConfigStore × List PreferenceEffect) :=
  match lp.handleChanged inp.radioChanged w with
  | none => none
  | some (lp1, w1, effects) =>
    some (lp1, w1,
      effects ++ List.replicate inp.cancelClicked PreferenceEffect.Dismiss ++
        (if inp.BackdropClicked true then [PreferenceEffect.Dismiss] else []))

/-- A radio button as `layoutItems` builds it: the key it stands for, its
label and its two colours. -/
structure RadioItem where
  key : String
  label : String
  color : NRGBA
  iconColor : NRGBA
  deriving DecidableEq, Repr

/-- The method `layoutItems`; a key missing from the map reads as the empty
string, as in Go. -/
def ListPreferenceModal.layoutItems (env : PreferenceEnv) (lp : ListPreferenceModal) :
    List RadioItem :=
  lp.itemKeys.foldl
    (fun items k =>
      items ++ [⟨k, env.valuesString ((lp.items.lookup k).getD ""), env.DeepBlue, env.Primary⟩])
    []

/-- A call made on the modal, or the toolkit writing the key of a clicked radio
button into `optionsRadioGroup.Value`. -/
inductive PreferenceOp
  | UpdateValues
  | OnResume
  | Handle (inp : PreferenceInput)
  | radioSelect (key : String)

/-- Whether an operation is a call of `OnResume`. -/
def PreferenceOp.isOnResume : PreferenceOp → Bool
  | .OnResume => true
  | _ => false

/-- One `PreferenceOp` on the modal and the store. -/
def ListPreferenceModal.step (st : ListPreferenceModal × ConfigStore) :
    PreferenceOp → Option (ListPreferenceModal × ConfigStore)
  | .UpdateValues => some (st.1.UpdateValues, st.2)
  | .OnResume => some (st.1.OnResume st.2)
  | .Handle inp => (st.1.Handle inp st.2).map (fun r => (r.1, r.2.1))
  | .radioSelect key =>
    some ({ st.1 with optionsRadioGroup := { st.1.optionsRadioGroup with Value := key } }, st.2)

/-- A sequence of `PreferenceOp`s, the first one first; `none` once a call
has panicked. -/
def ListPreferenceModal.run (st : ListPreferenceModal × ConfigStore) :
    List PreferenceOp → Option (ListPreferenceModal × ConfigStore)
  | [] => some st
  | op :: ops =>
    match ListPreferenceModal.step st op with
    | none => none
    | some st1 => ListPreferenceModal.run st1 ops

/-- The invariant carried along a run of the list-preference modal, relative
to a list `keys`: the default value is in `keys`; the current value, the value
of the radio group and the value stored under the preference key are each
empty or in `keys`; and once `resumed` holds, the current value and the value
of the radio group are in `keys`. -/
def PreferenceInvariant (keys : List String) (resumed : Bool)
    (st : ListPreferenceModal × ConfigStore) : Prop :=
  st.1.defaultValue ∈ keys ∧
  (st.1.currentValue = "" ∨ st.1.currentValue ∈ keys) ∧
  (st.1.optionsRadioGroup.Value = "" ∨ st.1.optionsRadioGroup.Value ∈ keys) ∧
  (st.2 st.1.preferenceKey = "" ∨ st.2 st.1.preferenceKey ∈ keys) ∧
  (resumed = true → st.1.currentValue ∈ keys ∧ st.1.optionsRadioGroup.Value ∈ keys)

/-- Whether an effect is an invocation of the completion callback. -/
def Effect.isCallback : Effect → Bool
  | .callback _ _ => true
  | _ => false

/-! ## Sample values -/

/-- A theme with seven distinct colours. -/
def sampleColor : ThemeColor :=
  { Primary := ⟨41, 112, 255, 255⟩
    Gray3 := ⟨199, 221, 239, 255⟩
    Danger := ⟨237, 109, 71, 255⟩
    Surface := ⟨255, 255, 255, 255⟩
    SurfaceHighlight := ⟨243, 245, 246, 255⟩
    GrayText1 := ⟨61, 88, 115, 255⟩
    Text := ⟨9, 20, 64, 255⟩ }

/-- An environment over `sampleColor` with English messages. -/
def sampleEnv : Env :=
  { Color := sampleColor
    valuesString := fun k =>
      match k with
      | .StrEnterWalletName => "Enter wallet name"
      | .StrEnterSpendingPassword => "Enter spending password"
      | .StrConfirmSpendingPassword => "Confirm spending password"
      | .StrPasswordNotMatch => "Passwords do not match"
      | .StrWalletExist => "Wallet with name: %s already exist"
      | .StrSpendingPasswordInfo2 => "This spending password is for the new wallet only"
    valuesStringF := fun k arg =>
      match k with
      | .StrWalletExist => "Wallet with name: " ++ arg ++ " already exist"
      | _ => arg
    ErrExist := "exists"
    computePasswordStrength := fun text => text.length }

/-- An editor holding `text`, without hint and without error. -/
def sampleEditor (text : String) : Editor := ⟨text, "", ""⟩

/-- A modal as `NewCreatePasswordModal` and `EnableName` leave it, with the
given texts typed into its three editors. -/
def sampleModal (walletNameEnabled : Bool) (name password confirm : String) :
    CreatePasswordModal :=
  { walletName := sampleEditor name
    passwordEditor := sampleEditor password
    confirmPasswordEditor := sampleEditor confirm
    passwordStrength := 0
    isLoading := false
    isCancelable := true
    walletNameEnabled := walletNameEnabled
    showWalletWarnInfo := false
    isEnabled := false
    dialogTitle := ""
    serverError := ""
    description := ""
    parentSet := false
    modalDisabled := false
    btnPositveBackground := NRGBA.zero
    btnNegativeEnabled := true }

/-- A frame in which the toolkit reports nothing. -/
def quietInput : HandleInput := ⟨false, false, false, false, fun _ => false⟩

/-- A frame in which only the positive button reports a click. -/
def clickPositive : HandleInput := ⟨false, false, true, false, fun _ => false⟩

/-- A callback that leaves the modal alone and asks for dismissal. -/
def sampleCallback : Callback := fun _ _ m => (true, m)

/-- A theme over `sampleColor` whose buttons start out colourless. -/
def sampleTheme : Theme :=
  { Color := sampleColor
    Button := fun text => ⟨text, NRGBA.zero, NRGBA.zero, NRGBA.zero, 0⟩ }

/-- Two input items, "Auto" and "Manual", as a caller passes them in. -/
def sampleItems : List SwitchItem :=
  [⟨"Auto", sampleTheme.Button ""⟩, ⟨"Manual", sampleTheme.Button ""⟩]

/-- The switch over `sampleItems` after its first layout pass without clicks:
option 1 is selected and shown in the active colours. -/
def sampleSwitch : SwitchButtonText :=
  (Theme.SwitchButtonText sampleTheme sampleItems).handleClickEvent (fun _ => false)

/-- The switch over `sampleItems` after option 2 was clicked and the change
was polled: option 2 is selected and the changed flag is clear. -/
def sampleSwitchSecond : SwitchButtonText :=
  ((sampleSwitch.handleClickEvent (fun index => index == 2)).Changed).2

/-- A switch style with three distinct colours. -/
def sampleStyle : SwitchStyle :=
  { ActiveColor := ⟨41, 112, 255, 255⟩
    InactiveColor := ⟨199, 221, 239, 255⟩
    ThumbColor := ⟨255, 255, 255, 255⟩ }

/-- An environment whose `Disabled` halves the alpha channel and whose `Dp`
maps one unit to one pixel. -/
def sampleSwitchEnv : SwitchEnv :=
  { Disabled := fun c => ⟨c.R, c.G, c.B, c.A / 2⟩
    Dp := fun v => v }

/-- A map with the two keys "k2" and "k1", visited in that order. -/
def samplePreferenceItems : List (String × String) :=
  [("k2", "optionTwo"), ("k1", "optionOne")]

/-- The list preference over `samplePreferenceItems` with preference key
"prefKey" and default "k1", after `UpdateValues`. -/
def samplePreference : ListPreferenceModal :=
  (NewListPreference "prefKey" "k1" samplePreferenceItems).UpdateValues

/-- A store without any value. -/
def emptyStore : ConfigStore := fun _ => ""

/-- A frame in which the radio group reports one change and nothing else
happens. -/
def oneChange : PreferenceInput := ⟨1, 0, fun _ => false⟩

/-- An environment for `layoutItems` that shows the string keys themselves. -/
def samplePreferenceEnv : PreferenceEnv :=
  { valuesString := fun key => key
    DeepBlue := ⟨9, 20, 64, 255⟩
    Primary := ⟨41, 112, 255, 255⟩ }

/-! ## Theorems about `CreatePasswordModal` -/

theorem editorsNotEmpty_one (a : String) : editorsNotEmpty [a] = true ↔ a ≠ "" := by
  simp [editorsNotEmpty]

theorem editorsNotEmpty_two (a b : String) :
    editorsNotEmpty [a, b] = true ↔ a ≠ "" ∧ b ≠ "" := by
  simp [editorsNotEmpty]

/-- The conjunction checked on submit: every required field is filled in and
the two passwords agree. -/
theorem validToCreate_iff (env : Env) (cm : CreatePasswordModal) :
    (cm.validToCreate env).1 = true ↔
      (cm.walletNameEnabled = true → cm.walletName.Text ≠ "") ∧
      cm.passwordEditor.Text ≠ "" ∧ cm.confirmPasswordEditor.Text ≠ "" ∧
      cm.passwordEditor.Text = cm.confirmPasswordEditor.Text := by
  unfold CreatePasswordModal.validToCreate CreatePasswordModal.passwordsMatch
  cases hw : cm.walletNameEnabled <;>
    by_cases hn : cm.walletName.Text = "" <;>
    by_cases hp : cm.passwordEditor.Text = "" <;>
    by_cases hc : cm.confirmPasswordEditor.Text = "" <;>
    by_cases he : cm.passwordEditor.Text = cm.confirmPasswordEditor.Text <;>
    simp [editorsNotEmpty, hn, hp, hc, he]

theorem handleCancel_no_callback (env : Env) (inp : HandleInput) (cm : CreatePasswordModal)
    (n p : String) : Effect.callback n p ∉ (cm.handleCancel env inp).2 := by
  unfold CreatePasswordModal.handleCancel
  simp only [List.mem_append, not_or]
  constructor
  · split <;> [split <;> [split; skip]; skip] <;> simp
  · split <;> [split; skip] <;> simp

/-- A triggered submit on an enabled, valid form: the confirm error is cleared,
the modal is put into the loading state, the callback is called on it once
with the wallet name and the password, and `Dismiss` follows exactly when the
callback returned true. -/
theorem handleSubmit_valid (env : Env) (cb : Callback) (inp : HandleInput)
    (s : CreatePasswordModal)
    (ht : inp.btnPositveClicked = true ∨ inp.isSubmit = true) (he : s.isEnabled = true)
    (hv : (s.validToCreate env).1 = true) :
    s.handleSubmit env (some cb) inp =
      some ((cb s.walletName.Text s.passwordEditor.Text
          ({ s with confirmPasswordEditor := s.confirmPasswordEditor.SetError "" }.SetLoading
            true)).2,
        Effect.callback s.walletName.Text s.passwordEditor.Text ::
          (if (cb s.walletName.Text s.passwordEditor.Text
              ({ s with confirmPasswordEditor := s.confirmPasswordEditor.SetError "" }.SetLoading
                true)).1 = true
            then [Effect.Dismiss] else []),
        SubmitExit.fallThrough) := by
  rw [validToCreate_iff] at hv
  obtain ⟨hn, hp, hc, hm⟩ := hv
  have hn' : (s.walletNameEnabled && !editorsNotEmpty [s.walletName.Text]) = false := by
    cases hw : s.walletNameEnabled
    · simp
    · simp [editorsNotEmpty, hn hw]
  have ht' : ((inp.btnPositveClicked || inp.isSubmit) && s.isEnabled) = true := by
    rcases ht with h | h <;> simp [h, he]
  have h1 : editorsNotEmpty [s.passwordEditor.Text] = true := (editorsNotEmpty_one _).2 hp
  have h2 : editorsNotEmpty [s.confirmPasswordEditor.Text] = true := (editorsNotEmpty_one _).2 hc
  have h3 : (s.passwordEditor.Text != s.confirmPasswordEditor.Text) = false := by
    simp [hm]
  unfold CreatePasswordModal.handleSubmit CreatePasswordModal.passwordsMatch
  simp only [ht', hn', h1, h2, h3, Bool.not_true, if_true, Bool.false_eq_true, if_false]
  simp only [CreatePasswordModal.SetLoading]

/-- Without a trigger the submit block does nothing. -/
theorem handleSubmit_idle (env : Env) (cb : Option Callback) (inp : HandleInput)
    (s : CreatePasswordModal)
    (ht : ¬ ((inp.btnPositveClicked = true ∨ inp.isSubmit = true) ∧ s.isEnabled = true)) :
    s.handleSubmit env cb inp = some (s, [], SubmitExit.fallThrough) := by
  have ht' : ((inp.btnPositveClicked || inp.isSubmit) && s.isEnabled) = false := by
    cases h1 : inp.btnPositveClicked <;> cases h2 : inp.isSubmit <;> cases h3 : s.isEnabled <;>
      simp_all
  unfold CreatePasswordModal.handleSubmit
  simp only [ht', Bool.false_eq_true, if_false]

/-- A triggered submit on an enabled form with an empty, required wallet name. -/
theorem handleSubmit_noName (env : Env) (cb : Option Callback) (inp : HandleInput)
    (s : CreatePasswordModal)
    (ht : inp.btnPositveClicked = true ∨ inp.isSubmit = true) (he : s.isEnabled = true)
    (hw : s.walletNameEnabled = true) (hn : s.walletName.Text = "") :
    s.handleSubmit env cb inp =
      some ({ s with walletName :=
          s.walletName.SetError (env.valuesString .StrEnterWalletName) }, [],
        SubmitExit.returned) := by
  have ht' : ((inp.btnPositveClicked || inp.isSubmit) && s.isEnabled) = true := by
    rcases ht with h | h <;> simp [h, he]
  unfold CreatePasswordModal.handleSubmit
  simp [ht', hw, hn, editorsNotEmpty]

/-- A triggered submit on an enabled form whose wallet name passes and whose
password is empty. -/
theorem handleSubmit_noPassword (env : Env) (cb : Option Callback) (inp : HandleInput)
    (s : CreatePasswordModal)
    (ht : inp.btnPositveClicked = true ∨ inp.isSubmit = true) (he : s.isEnabled = true)
    (hn : s.walletNameEnabled = true → s.walletName.Text ≠ "")
    (hp : s.passwordEditor.Text = "") :
    s.handleSubmit env cb inp =
      some ({ s with passwordEditor :=
          s.passwordEditor.SetError (env.valuesString .StrEnterSpendingPassword) }, [],
        SubmitExit.returned) := by
  have ht' : ((inp.btnPositveClicked || inp.isSubmit) && s.isEnabled) = true := by
    rcases ht with h | h <;> simp [h, he]
  have hn' : (s.walletNameEnabled && !editorsNotEmpty [s.walletName.Text]) = false := by
    cases hw : s.walletNameEnabled
    · simp
    · simp [editorsNotEmpty, hn hw]
  have h1 : editorsNotEmpty [s.passwordEditor.Text] = false := by simp [editorsNotEmpty, hp]
  unfold CreatePasswordModal.handleSubmit
  simp only [ht', hn', h1, Bool.not_false, Bool.false_eq_true, if_true, if_false]

/-- A triggered submit on an enabled form whose wallet name and password pass
and whose confirmation is empty. -/
theorem handleSubmit_noConfirm (env : Env) (cb : Option Callback) (inp : HandleInput)
    (s : CreatePasswordModal)
    (ht : inp.btnPositveClicked = true ∨ inp.isSubmit = true) (he : s.isEnabled = true)
    (hn : s.walletNameEnabled = true → s.walletName.Text ≠ "")
    (hp : s.passwordEditor.Text ≠ "") (hc : s.confirmPasswordEditor.Text = "") :
    s.handleSubmit env cb inp =
      some ({ s with confirmPasswordEditor :=
          s.confirmPasswordEditor.SetError (env.valuesString .StrConfirmSpendingPassword) }, [],
        SubmitExit.returned) := by
  have ht' : ((inp.btnPositveClicked || inp.isSubmit) && s.isEnabled) = true := by
    rcases ht with h | h <;> simp [h, he]
  have hn' : (s.walletNameEnabled && !editorsNotEmpty [s.walletName.Text]) = false := by
    cases hw : s.walletNameEnabled
    · simp
    · simp [editorsNotEmpty, hn hw]
  have h1 : editorsNotEmpty [s.passwordEditor.Text] = true := (editorsNotEmpty_one _).2 hp
  have h2 : editorsNotEmpty [s.confirmPasswordEditor.Text] = false := by
    simp [editorsNotEmpty, hc]
  unfold CreatePasswordModal.handleSubmit
  simp only [ht', hn', h1, h2, Bool.not_false, Bool.not_true, Bool.false_eq_true, if_true,
    if_false]

/-- A triggered submit on an enabled form whose fields are all filled in and
whose passwords differ. -/
theorem handleSubmit_mismatch (env : Env) (cb : Option Callback) (inp : HandleInput)
    (s : CreatePasswordModal)
    (ht : inp.btnPositveClicked = true ∨ inp.isSubmit = true) (he : s.isEnabled = true)
    (hn : s.walletNameEnabled = true → s.walletName.Text ≠ "")
    (hp : s.passwordEditor.Text ≠ "") (hc : s.confirmPasswordEditor.Text ≠ "")
    (hm : s.passwordEditor.Text ≠ s.confirmPasswordEditor.Text) :
    s.handleSubmit env cb inp =
      some ({ s with confirmPasswordEditor :=
          s.confirmPasswordEditor.SetError (env.valuesString .StrPasswordNotMatch) }, [],
        SubmitExit.fallThrough) := by
  have ht' : ((inp.btnPositveClicked || inp.isSubmit) && s.isEnabled) = true := by
    rcases ht with h | h <;> simp [h, he]
  have hn' : (s.walletNameEnabled && !editorsNotEmpty [s.walletName.Text]) = false := by
    cases hw : s.walletNameEnabled
    · simp
    · simp [editorsNotEmpty, hn hw]
  have h1 : editorsNotEmpty [s.passwordEditor.Text] = true := (editorsNotEmpty_one _).2 hp
  have h2 : editorsNotEmpty [s.confirmPasswordEditor.Text] = true := (editorsNotEmpty_one _).2 hc
  have h3 : (s.passwordEditor.Text != s.confirmPasswordEditor.Text) = true := by
    simp [hm]
  unfold CreatePasswordModal.handleSubmit CreatePasswordModal.passwordsMatch
  simp only [ht', hn', h1, h2, h3, Bool.not_true, Bool.false_eq_true, if_true, if_false]

/-- Whenever the submit block is not triggered on an enabled and valid form, it
ends without any effect and leaves the loading flag alone. -/
theorem handleSubmit_rejected (env : Env) (cb : Option Callback) (inp : HandleInput)
    (s : CreatePasswordModal)
    (h : ¬ ((inp.btnPositveClicked = true ∨ inp.isSubmit = true) ∧ s.isEnabled = true ∧
      (s.validToCreate env).1 = true)) :
    ∃ s1 exit, s.handleSubmit env cb inp = some (s1, [], exit) ∧ s1.isLoading = s.isLoading := by
  by_cases ht : (inp.btnPositveClicked = true ∨ inp.isSubmit = true) ∧ s.isEnabled = true
  · obtain ⟨ht, he⟩ := ht
    have hv : ¬ (s.validToCreate env).1 = true := fun hv => h ⟨ht, he, hv⟩
    rw [validToCreate_iff] at hv
    by_cases hn : s.walletNameEnabled = true → s.walletName.Text ≠ ""
    · by_cases hp : s.passwordEditor.Text = ""
      · exact ⟨_, _, handleSubmit_noPassword env cb inp s ht he hn hp, rfl⟩
      · by_cases hc : s.confirmPasswordEditor.Text = ""
        · exact ⟨_, _, handleSubmit_noConfirm env cb inp s ht he hn hp hc, rfl⟩
        · have hm : s.passwordEditor.Text ≠ s.confirmPasswordEditor.Text :=
            fun hm => hv ⟨hn, hp, hc, hm⟩
          exact ⟨_, _, handleSubmit_mismatch env cb inp s ht he hn hp hc hm, rfl⟩
    · push_neg at hn
      exact ⟨_, _, handleSubmit_noName env cb inp s ht he hn.1 hn.2, rfl⟩
  · exact ⟨_, _, handleSubmit_idle env cb inp s ht, rfl⟩

/-- The state on which the submit block runs has the texts and the name switch
of the modal `Handle` was called on, and is enabled exactly when one of the
three editors is filled in. -/
theorem handle_entry_fields (env : Env) (inp : HandleInput) (cm : CreatePasswordModal) :
    ((cm.handleEnabled env).handleChanged inp).walletName.Text = cm.walletName.Text ∧
    ((cm.handleEnabled env).handleChanged inp).passwordEditor.Text = cm.passwordEditor.Text ∧
    ((cm.handleEnabled env).handleChanged inp).confirmPasswordEditor.Text =
      cm.confirmPasswordEditor.Text ∧
    ((cm.handleEnabled env).handleChanged inp).walletNameEnabled = cm.walletNameEnabled ∧
    ((cm.handleEnabled env).handleChanged inp).isLoading = cm.isLoading ∧
    (((cm.handleEnabled env).handleChanged inp).isEnabled = true ↔
      (cm.passwordEditor.Text ≠ "" ∨ cm.walletName.Text ≠ "" ∨
        cm.confirmPasswordEditor.Text ≠ "")) := by
  unfold CreatePasswordModal.handleChanged CreatePasswordModal.handleEnabled
  by_cases hn : cm.walletName.Text = "" <;>
    by_cases hp : cm.passwordEditor.Text = "" <;>
    by_cases hc : cm.confirmPasswordEditor.Text = "" <;>
    cases inp.isChanged <;>
    simp [editorsNotEmpty, hn, hp, hc, Editor.SetError]

/-- What the tail of `Handle` writes: the enabled flag of the negative button
and the strength meter, nothing else. -/
theorem handleCancel_state (env : Env) (inp : HandleInput) (cm : CreatePasswordModal) :
    (cm.handleCancel env inp).1 =
      { cm with
        btnNegativeEnabled := !cm.isLoading
        passwordStrength := env.computePasswordStrength cm.passwordEditor.Text } := rfl

theorem handleCancel_filter_callback (env : Env) (inp : HandleInput) (cm : CreatePasswordModal) :
    (cm.handleCancel env inp).2.filter Effect.isCallback = [] := by
  rw [List.filter_eq_nil_iff]
  intro e he
  cases e with
  | callback n p => exact absurd he (handleCancel_no_callback env inp cm n p)
  | Dismiss => simp [Effect.isCallback]
  | parentOnNavigatedTo => simp [Effect.isCallback]

/-- C1: with a completion callback set, `Handle` always completes, and its
effects contain an invocation of the callback if and only if a submit was
triggered (positive button clicked or an editor submit event), every required
field is non-empty (the wallet name only when `walletNameEnabled`) and the
password text equals the confirm-password text. -/
theorem Handle_callback_iff (env : Env) (cb : Callback) (inp : HandleInput)
    (cm : CreatePasswordModal) :
    ∃ cm1 effects, cm.Handle env (some cb) inp = some (cm1, effects) ∧
      ((∃ n p, Effect.callback n p ∈ effects) ↔
        ((inp.btnPositveClicked = true ∨ inp.isSubmit = true) ∧
          (cm.walletNameEnabled = true → cm.walletName.Text ≠ "") ∧
          cm.passwordEditor.Text ≠ "" ∧ cm.confirmPasswordEditor.Text ≠ "" ∧
          cm.passwordEditor.Text = cm.confirmPasswordEditor.Text)) := by
  obtain ⟨en, ep, ec, ew, -, hen⟩ := handle_entry_fields env inp cm
  have hvs := validToCreate_iff env ((cm.handleEnabled env).handleChanged inp)
  rw [en, ep, ec, ew] at hvs
  by_cases h : (inp.btnPositveClicked = true ∨ inp.isSubmit = true) ∧
      (cm.walletNameEnabled = true → cm.walletName.Text ≠ "") ∧
      cm.passwordEditor.Text ≠ "" ∧ cm.confirmPasswordEditor.Text ≠ "" ∧
      cm.passwordEditor.Text = cm.confirmPasswordEditor.Text
  · have he := hen.2 (Or.inl h.2.2.1)
    have hs := handleSubmit_valid env cb inp _ h.1 he (hvs.2 h.2)
    unfold CreatePasswordModal.Handle
    rw [hs]
    exact ⟨_, _, rfl, ⟨fun _ => h, fun _ =>
      ⟨_, _, List.mem_append_left _ (List.mem_cons_self _ _)⟩⟩⟩
  · have hr : ¬ ((inp.btnPositveClicked = true ∨ inp.isSubmit = true) ∧
        ((cm.handleEnabled env).handleChanged inp).isEnabled = true ∧
        (((cm.handleEnabled env).handleChanged inp).validToCreate env).1 = true) :=
      fun hr => h ⟨hr.1, hvs.1 hr.2.2⟩
    obtain ⟨s1, exit, hs, -⟩ := handleSubmit_rejected env (some cb) inp _ hr
    unfold CreatePasswordModal.Handle
    rw [hs]
    cases exit with
    | returned =>
      refine ⟨_, _, rfl, ⟨fun hx => ?_, fun hx => absurd hx h⟩⟩
      obtain ⟨n, p, hm⟩ := hx
      simp at hm
    | fallThrough =>
      refine ⟨_, _, rfl, ⟨fun hx => ?_, fun hx => absurd hx h⟩⟩
      obtain ⟨n, p, hm⟩ := hx
      rw [List.nil_append] at hm
      exact absurd hm (handleCancel_no_callback env inp s1 n p)

/-- The two sample passes of the specification: with wallet name "w1" and
"abc" typed twice, a click on the positive button invokes the callback with
("w1", "abc") and dismisses; with confirmation "abx" it has no effect at all. -/
theorem Handle_sample_passes :
    ((sampleModal true "w1" "abc" "abc").Handle sampleEnv (some sampleCallback)
        clickPositive).map Prod.snd = some [Effect.callback "w1" "abc", Effect.Dismiss] ∧
    ((sampleModal true "w1" "abc" "abx").Handle sampleEnv (some sampleCallback)
        clickPositive).map Prod.snd = some [] :=
  ⟨rfl, rfl⟩

/-- C2: a triggered submit on a form with at least one non-empty editor and a
violated validation rule completes (whatever the callback field holds) without
invoking the callback, leaves `isLoading` unchanged, and sets the error of the
first violated rule: wallet name empty while `walletNameEnabled` gives
`StrEnterWalletName` on the wallet-name editor; else password empty gives
`StrEnterSpendingPassword` on the password editor; else confirmation empty
gives `StrConfirmSpendingPassword` on the confirm editor; else differing
passwords give `StrPasswordNotMatch` on the confirm editor. -/
theorem Handle_rejected_submit (env : Env) (cb : Option Callback) (inp : HandleInput)
    (cm : CreatePasswordModal)
    (ht : inp.btnPositveClicked = true ∨ inp.isSubmit = true)
    (hne : cm.passwordEditor.Text ≠ "" ∨ cm.walletName.Text ≠ "" ∨
      cm.confirmPasswordEditor.Text ≠ "")
    (hviol : ¬ ((cm.walletNameEnabled = true → cm.walletName.Text ≠ "") ∧
      cm.passwordEditor.Text ≠ "" ∧ cm.confirmPasswordEditor.Text ≠ "" ∧
      cm.passwordEditor.Text = cm.confirmPasswordEditor.Text)) :
    ∃ cm1 effects, cm.Handle env cb inp = some (cm1, effects) ∧
      (∀ n p, Effect.callback n p ∉ effects) ∧
      cm1.isLoading = cm.isLoading ∧
      (cm.walletNameEnabled = true ∧ cm.walletName.Text = "" →
        cm1.walletName.errorLabel = env.valuesString .StrEnterWalletName) ∧
      (¬ (cm.walletNameEnabled = true ∧ cm.walletName.Text = "") →
        cm.passwordEditor.Text = "" →
        cm1.passwordEditor.errorLabel = env.valuesString .StrEnterSpendingPassword) ∧
      (¬ (cm.walletNameEnabled = true ∧ cm.walletName.Text = "") →
        cm.passwordEditor.Text ≠ "" → cm.confirmPasswordEditor.Text = "" →
        cm1.confirmPasswordEditor.errorLabel =
          env.valuesString .StrConfirmSpendingPassword) ∧
      (¬ (cm.walletNameEnabled = true ∧ cm.walletName.Text = "") →
        cm.passwordEditor.Text ≠ "" → cm.confirmPasswordEditor.Text ≠ "" →
        cm.passwordEditor.Text ≠ cm.confirmPasswordEditor.Text →
        cm1.confirmPasswordEditor.errorLabel = env.valuesString .StrPasswordNotMatch) := by
  obtain ⟨en, ep, ec, ew, el, hen⟩ := handle_entry_fields env inp cm
  have he := hen.2 hne
  by_cases hn : cm.walletNameEnabled = true → cm.walletName.Text ≠ ""
  · have hn1 : ¬ (cm.walletNameEnabled = true ∧ cm.walletName.Text = "") :=
      fun h => hn h.1 h.2
    have hns : ((cm.handleEnabled env).handleChanged inp).walletNameEnabled = true →
        ((cm.handleEnabled env).handleChanged inp).walletName.Text ≠ "" := by
      rw [ew, en]; exact hn
    by_cases hp : cm.passwordEditor.Text = ""
    · have hs := handleSubmit_noPassword env cb inp _ ht he hns (ep.trans hp)
      unfold CreatePasswordModal.Handle
      rw [hs]
      exact ⟨_, _, rfl, fun _ _ hx => by simp at hx, el, fun h => absurd h hn1,
        fun _ _ => rfl, fun _ h => absurd hp h, fun _ h => absurd hp h⟩
    · by_cases hc : cm.confirmPasswordEditor.Text = ""
      · have hs := handleSubmit_noConfirm env cb inp _ ht he hns (ep ▸ hp) (ec.trans hc)
        unfold CreatePasswordModal.Handle
        rw [hs]
        exact ⟨_, _, rfl, fun _ _ hx => by simp at hx, el, fun h => absurd h hn1,
          fun _ h => absurd h hp, fun _ _ _ => rfl, fun _ _ h => absurd hc h⟩
      · have hm : cm.passwordEditor.Text ≠ cm.confirmPasswordEditor.Text :=
          fun hm => hviol ⟨hn, hp, hc, hm⟩
        have hs := handleSubmit_mismatch env cb inp _ ht he hns (ep ▸ hp) (ec ▸ hc)
          (by rw [ep, ec]; exact hm)
        unfold CreatePasswordModal.Handle
        rw [hs]
        refine ⟨_, _, rfl, fun n p hx => ?_, el, fun h => absurd h hn1,
          fun _ h => absurd h hp, fun _ _ h => absurd h hc, fun _ _ _ _ => rfl⟩
        rw [List.nil_append] at hx
        exact handleCancel_no_callback env inp _ n p hx
  · push_neg at hn
    have hs := handleSubmit_noName env cb inp _ ht he (ew.trans hn.1) (en.trans hn.2)
    unfold CreatePasswordModal.Handle
    rw [hs]
    exact ⟨_, _, rfl, fun _ _ hx => by simp at hx, el, fun _ => rfl,
      fun h => absurd hn h, fun h => absurd hn h, fun h => absurd hn h⟩

/-- Witness of C2: wallet name "w1", password "abc", confirmation "abx" and a
click on the positive button put the passwords-do-not-match message onto the
confirm editor. -/
theorem Handle_rejected_submit_witness :
    (clickPositive.btnPositveClicked = true ∨ clickPositive.isSubmit = true) ∧
    ∃ cm1 effects,
      (sampleModal true "w1" "abc" "abx").Handle sampleEnv none clickPositive =
        some (cm1, effects) ∧
      (∀ n p, Effect.callback n p ∉ effects) ∧
      cm1.isLoading = false ∧
      cm1.confirmPasswordEditor.errorLabel = "Passwords do not match" := by
  refine ⟨by decide, ?_⟩
  obtain ⟨cm1, effects, h, hcb, hl, -, -, -, hm⟩ :=
    Handle_rejected_submit sampleEnv none clickPositive (sampleModal true "w1" "abc" "abx")
      (by decide) (by decide) (by decide)
  exact ⟨cm1, effects, h, hcb, hl, hm (by decide) (by decide) (by decide) (by decide)⟩

/-- Counterexample to C3: with name switch off, password "abc" and an empty
confirmation, a pass without any event leaves the submit action enabled
(`isEnabled` true, `Primary` background) although the confirmation is empty. -/
theorem Handle_enabled_counterexample :
    ∃ cm1 effects,
      (sampleModal false "" "abc" "").Handle sampleEnv none quietInput = some (cm1, effects) ∧
      cm1.isEnabled = true ∧
      cm1.btnPositveBackground = sampleEnv.Color.Primary ∧
      ¬ (((sampleModal false "" "abc" "").walletNameEnabled = true →
          (sampleModal false "" "abc" "").walletName.Text ≠ "") ∧
        (sampleModal false "" "abc" "").passwordEditor.Text ≠ "" ∧
        (sampleModal false "" "abc" "").confirmPasswordEditor.Text ≠ "" ∧
        (sampleModal false "" "abc" "").passwordEditor.Text =
          (sampleModal false "" "abc" "").confirmPasswordEditor.Text) :=
  ⟨_, _, rfl, rfl, rfl, by decide⟩

/-- The enabled flag and the background of the positive button as the first
block of `Handle` leaves them. -/
theorem handleEnabled_iff (env : Env) (cm : CreatePasswordModal) :
    (((cm.handleEnabled env).isEnabled = true ∧
        (cm.handleEnabled env).btnPositveBackground = env.Color.Primary) ↔
      (cm.passwordEditor.Text ≠ "" ∨ cm.walletName.Text ≠ "" ∨
        cm.confirmPasswordEditor.Text ≠ "")) ∧
    (((cm.handleEnabled env).isEnabled = false ∧
        (cm.handleEnabled env).btnPositveBackground = env.Color.Gray3) ↔
      (cm.passwordEditor.Text = "" ∧ cm.walletName.Text = "" ∧
        cm.confirmPasswordEditor.Text = "")) := by
  unfold CreatePasswordModal.handleEnabled
  by_cases hn : cm.walletName.Text = "" <;>
    by_cases hp : cm.passwordEditor.Text = "" <;>
    by_cases hc : cm.confirmPasswordEditor.Text = "" <;>
    simp [editorsNotEmpty, hn, hp, hc]

/-- After its first block, `Handle` itself never writes the enabled flag or the
background of the positive button; only the callback could. -/
theorem Handle_keeps_enabled (env : Env) (cb : Callback) (inp : HandleInput)
    (cm : CreatePasswordModal)
    (hcb : ∀ n p m, (cb n p m).2.isEnabled = m.isEnabled ∧
      (cb n p m).2.btnPositveBackground = m.btnPositveBackground) :
    ∃ cm1 effects, cm.Handle env (some cb) inp = some (cm1, effects) ∧
      cm1.isEnabled = (cm.handleEnabled env).isEnabled ∧
      cm1.btnPositveBackground = (cm.handleEnabled env).btnPositveBackground := by
  have hch : ((cm.handleEnabled env).handleChanged inp).isEnabled =
        (cm.handleEnabled env).isEnabled ∧
      ((cm.handleEnabled env).handleChanged inp).btnPositveBackground =
        (cm.handleEnabled env).btnPositveBackground := by
    unfold CreatePasswordModal.handleChanged
    split <;> exact ⟨rfl, rfl⟩
  by_cases h : (inp.btnPositveClicked = true ∨ inp.isSubmit = true) ∧
      ((cm.handleEnabled env).handleChanged inp).isEnabled = true ∧
      (((cm.handleEnabled env).handleChanged inp).validToCreate env).1 = true
  · have hs := handleSubmit_valid env cb inp _ h.1 h.2.1 h.2.2
    unfold CreatePasswordModal.Handle
    rw [hs]
    refine ⟨_, _, rfl, ?_, ?_⟩
    · exact ((hcb _ _ _).1.trans hch.1)
    · exact ((hcb _ _ _).2.trans hch.2)
  · by_cases ht : (inp.btnPositveClicked = true ∨ inp.isSubmit = true) ∧
        ((cm.handleEnabled env).handleChanged inp).isEnabled = true
    · obtain ⟨ht, he⟩ := ht
      have hv : ¬ (((cm.handleEnabled env).handleChanged inp).validToCreate env).1 = true :=
        fun hv => h ⟨ht, he, hv⟩
      rw [validToCreate_iff] at hv
      by_cases hn : ((cm.handleEnabled env).handleChanged inp).walletNameEnabled = true →
          ((cm.handleEnabled env).handleChanged inp).walletName.Text ≠ ""
      · by_cases hp : ((cm.handleEnabled env).handleChanged inp).passwordEditor.Text = ""
        · have hs := handleSubmit_noPassword env (some cb) inp _ ht he hn hp
          unfold CreatePasswordModal.Handle
          rw [hs]
          exact ⟨_, _, rfl, hch.1, hch.2⟩
        · by_cases hc : ((cm.handleEnabled env).handleChanged inp).confirmPasswordEditor.Text = ""
          · have hs := handleSubmit_noConfirm env (some cb) inp _ ht he hn hp hc
            unfold CreatePasswordModal.Handle
            rw [hs]
            exact ⟨_, _, rfl, hch.1, hch.2⟩
          · have hs := handleSubmit_mismatch env (some cb) inp _ ht he hn hp hc
              (fun hm => hv ⟨hn, hp, hc, hm⟩)
            unfold CreatePasswordModal.Handle
            rw [hs]
            exact ⟨_, _, rfl, hch.1, hch.2⟩
      · push_neg at hn
        have hs := handleSubmit_noName env (some cb) inp _ ht he hn.1 hn.2
        unfold CreatePasswordModal.Handle
        rw [hs]
        exact ⟨_, _, rfl, hch.1, hch.2⟩
    · have hs := handleSubmit_idle env (some cb) inp _ ht
      unfold CreatePasswordModal.Handle
      rw [hs]
      exact ⟨_, _, rfl, hch.1, hch.2⟩

/-- C3, amended: with a callback that does not itself write the enabled flag or
the positive button's background, after `Handle` the submit action is enabled
(`isEnabled` true and `Primary` background) if and only if at least one of the
three editors is non-empty; in particular it is enabled whenever every
required field is non-empty and the passwords agree. -/
theorem Handle_enabled_iff (env : Env) (cb : Callback) (inp : HandleInput)
    (cm : CreatePasswordModal)
    (hcb : ∀ n p m, (cb n p m).2.isEnabled = m.isEnabled ∧
      (cb n p m).2.btnPositveBackground = m.btnPositveBackground) :
    ∃ cm1 effects, cm.Handle env (some cb) inp = some (cm1, effects) ∧
      ((cm1.isEnabled = true ∧ cm1.btnPositveBackground = env.Color.Primary) ↔
        (cm.passwordEditor.Text ≠ "" ∨ cm.walletName.Text ≠ "" ∨
          cm.confirmPasswordEditor.Text ≠ "")) ∧
      (((cm.walletNameEnabled = true → cm.walletName.Text ≠ "") ∧
          cm.passwordEditor.Text ≠ "" ∧ cm.confirmPasswordEditor.Text ≠ "" ∧
          cm.passwordEditor.Text = cm.confirmPasswordEditor.Text) →
        cm1.isEnabled = true ∧ cm1.btnPositveBackground = env.Color.Primary) := by
  obtain ⟨cm1, effects, h, h1, h2⟩ := Handle_keeps_enabled env cb inp cm hcb
  have hi := (handleEnabled_iff env cm).1
  rw [← h1, ← h2] at hi
  exact ⟨cm1, effects, h, hi, fun hv => hi.2 (Or.inl hv.2.1)⟩

/-- Witness of the amended C3 at a form holding only a password. -/
theorem Handle_enabled_iff_witness :
    (∀ n p m, (sampleCallback n p m).2.isEnabled = m.isEnabled ∧
      (sampleCallback n p m).2.btnPositveBackground = m.btnPositveBackground) ∧
    ∃ cm1 effects,
      (sampleModal false "" "abc" "").Handle sampleEnv (some sampleCallback) quietInput =
        some (cm1, effects) ∧
      (cm1.isEnabled = true ∧ cm1.btnPositveBackground = sampleEnv.Color.Primary) := by
  refine ⟨fun _ _ _ => ⟨rfl, rfl⟩, ?_⟩
  obtain ⟨cm1, effects, h, hi, -⟩ :=
    Handle_enabled_iff sampleEnv sampleCallback quietInput (sampleModal false "" "abc" "")
      (fun _ _ _ => ⟨rfl, rfl⟩)
  exact ⟨cm1, effects, h, hi.2 (by decide)⟩

/-- C4: when a submit is triggered and validation passes, `Handle` first puts
the modal into the loading state (`isLoading` and the Modal's disabled flag are
true on the modal `armed` that the callback receives), invokes the callback
exactly once, with the wallet-name text and the password text, and the submit
block calls `Dismiss` right after it if and only if the callback returned
true. -/
theorem Handle_successful_submit (env : Env) (cb : Callback) (inp : HandleInput)
    (cm : CreatePasswordModal)
    (ht : inp.btnPositveClicked = true ∨ inp.isSubmit = true)
    (hv : (cm.walletNameEnabled = true → cm.walletName.Text ≠ "") ∧
      cm.passwordEditor.Text ≠ "" ∧ cm.confirmPasswordEditor.Text ≠ "" ∧
      cm.passwordEditor.Text = cm.confirmPasswordEditor.Text) :
    ∃ armed : CreatePasswordModal,
      armed.isLoading = true ∧ armed.modalDisabled = true ∧
      ((cm.handleEnabled env).handleChanged inp).handleSubmit env (some cb) inp =
        some ((cb cm.walletName.Text cm.passwordEditor.Text armed).2,
          Effect.callback cm.walletName.Text cm.passwordEditor.Text ::
            (if (cb cm.walletName.Text cm.passwordEditor.Text armed).1 = true
              then [Effect.Dismiss] else []),
          SubmitExit.fallThrough) ∧
      ∃ cm1 rest, cm.Handle env (some cb) inp =
          some (cm1, (Effect.callback cm.walletName.Text cm.passwordEditor.Text ::
            (if (cb cm.walletName.Text cm.passwordEditor.Text armed).1 = true
              then [Effect.Dismiss] else [])) ++ rest) ∧
        ((Effect.callback cm.walletName.Text cm.passwordEditor.Text ::
            (if (cb cm.walletName.Text cm.passwordEditor.Text armed).1 = true
              then [Effect.Dismiss] else [])) ++ rest).filter Effect.isCallback =
          [Effect.callback cm.walletName.Text cm.passwordEditor.Text] := by
  obtain ⟨en, ep, ec, ew, -, hen⟩ := handle_entry_fields env inp cm
  have hvs := validToCreate_iff env ((cm.handleEnabled env).handleChanged inp)
  rw [en, ep, ec, ew] at hvs
  have hs := handleSubmit_valid env cb inp _ ht (hen.2 (Or.inl hv.2.1)) (hvs.2 hv)
  rw [en, ep] at hs
  refine ⟨_, ?_, ?_, hs, ?_⟩
  · rfl
  · rfl
  · unfold CreatePasswordModal.Handle
    rw [hs]
    refine ⟨_, _, rfl, ?_⟩
    rw [List.filter_append, handleCancel_filter_callback, List.append_nil]
    split <;> simp [List.filter, Effect.isCallback]

/-- Witness of C4: wallet name "w1", password and confirmation "abc", a click
on the positive button and a callback that returns true. -/
theorem Handle_successful_submit_witness :
    (clickPositive.btnPositveClicked = true ∨ clickPositive.isSubmit = true) ∧
    ∃ cm1 effects,
      (sampleModal true "w1" "abc" "abc").Handle sampleEnv (some sampleCallback) clickPositive =
        some (cm1, effects) ∧
      effects.filter Effect.isCallback = [Effect.callback "w1" "abc"] := by
  refine ⟨by decide, ?_⟩
  obtain ⟨armed, -, -, -, cm1, rest, h, hf⟩ :=
    Handle_successful_submit sampleEnv sampleCallback clickPositive
      (sampleModal true "w1" "abc" "abc") (by decide) (by decide)
  exact ⟨cm1, _, h, hf⟩

/-- C5: in a pass without a submit trigger, `Handle` completes; if the pass
observed an edit of an editor, the server error and the three field errors are
empty afterwards, and if it observed none, all four are as before. -/
theorem Handle_reset_on_edit (env : Env) (cb : Option Callback) (inp : HandleInput)
    (cm : CreatePasswordModal)
    (hp : inp.btnPositveClicked = false) (hs : inp.isSubmit = false) :
    ∃ cm1 effects, cm.Handle env cb inp = some (cm1, effects) ∧
      (inp.isChanged = true →
        cm1.serverError = "" ∧ cm1.walletName.errorLabel = "" ∧
        cm1.passwordEditor.errorLabel = "" ∧ cm1.confirmPasswordEditor.errorLabel = "") ∧
      (inp.isChanged = false →
        cm1.serverError = cm.serverError ∧
        cm1.walletName.errorLabel = cm.walletName.errorLabel ∧
        cm1.passwordEditor.errorLabel = cm.passwordEditor.errorLabel ∧
        cm1.confirmPasswordEditor.errorLabel = cm.confirmPasswordEditor.errorLabel) := by
  have ht : ¬ ((inp.btnPositveClicked = true ∨ inp.isSubmit = true) ∧
      ((cm.handleEnabled env).handleChanged inp).isEnabled = true) := by
    rw [hp, hs]; simp
  have hsub := handleSubmit_idle env cb inp _ ht
  unfold CreatePasswordModal.Handle
  rw [hsub]
  refine ⟨_, _, rfl, fun hc => ?_, fun hc => ?_⟩
  · simp only [handleCancel_state, CreatePasswordModal.handleChanged, hc, if_true,
      Editor.SetError, and_self]
  · simp only [handleCancel_state, CreatePasswordModal.handleChanged, hc, Bool.false_eq_true,
      if_false]
    unfold CreatePasswordModal.handleEnabled
    split <;> exact ⟨rfl, rfl, rfl, rfl⟩

/-- Witness of C5: a pass that only reports an edit clears a stored server
error. -/
theorem Handle_reset_on_edit_witness :
    ∃ cm1 effects,
      ((sampleModal true "w1" "abc" "abc").SetError "exists").Handle sampleEnv none
        ⟨false, true, false, false, fun _ => false⟩ = some (cm1, effects) ∧
      cm1.serverError = "" := by
  obtain ⟨cm1, effects, h, hc, -⟩ :=
    Handle_reset_on_edit sampleEnv none ⟨false, true, false, false, fun _ => false⟩
      ((sampleModal true "w1" "abc" "abc").SetError "exists") rfl rfl
  exact ⟨cm1, effects, h, (hc rfl).1⟩

/-- C6: `Layout` and the server error. When the server error is non-empty,
equals `ErrExist` and the wallet name is enabled, `Layout` writes the
wallet-exists message, formatted with the wallet-name text, onto the
wallet-name editor and adds no banner; for any other non-empty server error it
changes nothing in the modal and adds exactly one banner, in the `Danger`
colour, whose text is the server error; for an empty server error it changes
nothing and adds no banner. -/
theorem Layout_serverError (env : Env) (cm : CreatePasswordModal) :
    (cm.Layout env).1 =
      (if cm.serverError ≠ "" ∧ cm.serverError = env.ErrExist ∧ cm.walletNameEnabled = true
        then { cm with walletName :=
          cm.walletName.SetError (env.valuesStringF .StrWalletExist cm.walletName.Text) }
        else cm) ∧
    (cm.Layout env).2.filter LayoutWidget.isBanner =
      (if cm.serverError ≠ "" ∧ ¬ (cm.serverError = env.ErrExist ∧ cm.walletNameEnabled = true)
        then [LayoutWidget.body2 cm.serverError (some env.Color.Danger)]
        else []) := by
  unfold CreatePasswordModal.Layout
  by_cases hs : cm.serverError = ""
  · by_cases hd : cm.description = "" <;> cases hw : cm.walletNameEnabled <;>
      simp [hs, hd, hw, List.filter, LayoutWidget.isBanner]
  · by_cases he : cm.serverError = env.ErrExist
    · have hs1 : ¬ env.ErrExist = "" := he ▸ hs
      by_cases hd : cm.description = "" <;> cases hw : cm.walletNameEnabled <;>
        simp [hs1, hd, hw, he, List.filter, LayoutWidget.isBanner]
    · by_cases hd : cm.description = "" <;> cases hw : cm.walletNameEnabled <;>
        simp [hs, hd, hw, he, List.filter, LayoutWidget.isBanner]

/-! ## Theorems about `SwitchButtonText` -/

theorem setButtonColors_length (items : List SwitchItem) (index : Nat) (bg col : NRGBA) :
    (setButtonColors items index bg col).length = items.length := by
  unfold setButtonColors
  split <;> simp

theorem setButtonColors_text (items : List SwitchItem) (index : Nat) (bg col : NRGBA) :
    (setButtonColors items index bg col).map (fun it => it.Text) =
      items.map (fun it => it.Text) := by
  unfold setButtonColors
  split
  · rename_i it hit
    apply List.ext_getElem?
    intro k
    rw [List.getElem?_map, List.getElem?_map, List.getElem?_set]
    by_cases hk : index = k
    · subst hk
      have hlt : index < items.length := by
        by_contra hge
        rw [List.getElem?_eq_none (Nat.le_of_not_lt hge)] at hit
        exact absurd hit (by simp)
      simp [hlt, hit]
    · simp [hk]
  · rfl

/-- One iteration of the click loop rewrites the colours of one button and
keeps the slice otherwise. -/
theorem handleClickStep_items (clicked : Nat → Bool) (s : SwitchButtonText) (index : Nat) :
    ∃ k bg col, (s.handleClickStep clicked index).items = setButtonColors s.items k bg col := by
  unfold SwitchButtonText.handleClickStep
  dsimp only
  split_ifs <;> exact ⟨_, _, _, rfl⟩

/-- The selected index after one iteration of the click loop. -/
theorem handleClickStep_selected (clicked : Nat → Bool) (s : SwitchButtonText) (index : Nat) :
    (s.handleClickStep clicked index).selected =
      if index ≠ 0 ∧ clicked index = true then index else s.selected := by
  unfold SwitchButtonText.handleClickStep
  dsimp only
  split_ifs <;> simp_all

/-- The changed flag after one iteration of the click loop. -/
theorem handleClickStep_changed (clicked : Nat → Bool) (s : SwitchButtonText) (index : Nat) :
    (s.handleClickStep clicked index).changed =
      if index ≠ 0 ∧ clicked index = true ∧ s.selected ≠ index then true else s.changed := by
  unfold SwitchButtonText.handleClickStep
  dsimp only
  split_ifs <;> simp_all

theorem handleClickStep_length (clicked : Nat → Bool) (s : SwitchButtonText) (index : Nat) :
    (s.handleClickStep clicked index).items.length = s.items.length := by
  obtain ⟨k, bg, col, h⟩ := handleClickStep_items clicked s index
  rw [h, setButtonColors_length]

theorem handleClickStep_text (clicked : Nat → Bool) (s : SwitchButtonText) (index : Nat) :
    (s.handleClickStep clicked index).items.map (fun it => it.Text) =
      s.items.map (fun it => it.Text) := by
  obtain ⟨k, bg, col, h⟩ := handleClickStep_items clicked s index
  rw [h, setButtonColors_text]

theorem handleClickLoop_length (clicked : Nat → Bool) (l : List Nat) (s : SwitchButtonText) :
    (l.foldl (SwitchButtonText.handleClickStep clicked) s).items.length = s.items.length := by
  induction l generalizing s with
  | nil => rfl
  | cons i rest ih => rw [List.foldl_cons, ih, handleClickStep_length]

theorem handleClickLoop_text (clicked : Nat → Bool) (l : List Nat) (s : SwitchButtonText) :
    (l.foldl (SwitchButtonText.handleClickStep clicked) s).items.map (fun it => it.Text) =
      s.items.map (fun it => it.Text) := by
  induction l generalizing s with
  | nil => rfl
  | cons i rest ih => rw [List.foldl_cons, ih, handleClickStep_text]

/-- The click loop keeps the selected index between 1 and the bound of the
indices it visits. -/
theorem handleClickLoop_selected_range (clicked : Nat → Bool) (m : Nat) (l : List Nat)
    (s : SwitchButtonText) (hl : ∀ i ∈ l, i < m) (h1 : 1 ≤ s.selected) (h2 : s.selected < m) :
    1 ≤ (l.foldl (SwitchButtonText.handleClickStep clicked) s).selected ∧
      (l.foldl (SwitchButtonText.handleClickStep clicked) s).selected < m := by
  induction l generalizing s with
  | nil => exact ⟨h1, h2⟩
  | cons i rest ih =>
    rw [List.foldl_cons]
    have hi : i < m := hl i (List.mem_cons_self _ _)
    apply ih _ (fun k hk => hl k (List.mem_cons_of_mem _ hk))
    · rw [handleClickStep_selected]
      split
      · rename_i hc
        exact Nat.one_le_iff_ne_zero.2 hc.1
      · exact h1
    · rw [handleClickStep_selected]
      split
      · exact hi
      · exact h2

/-- The click loop raises the changed flag whenever it moves the selection,
and never lowers it. -/
theorem handleClickLoop_changed (clicked : Nat → Bool) (l : List Nat) (s : SwitchButtonText) :
    ((l.foldl (SwitchButtonText.handleClickStep clicked) s).selected ≠ s.selected →
      (l.foldl (SwitchButtonText.handleClickStep clicked) s).changed = true) ∧
    (s.changed = true →
      (l.foldl (SwitchButtonText.handleClickStep clicked) s).changed = true) := by
  induction l generalizing s with
  | nil => exact ⟨fun h => absurd rfl h, fun h => h⟩
  | cons i rest ih =>
    rw [List.foldl_cons]
    obtain ⟨ih1, ih2⟩ := ih (s.handleClickStep clicked i)
    have hsel := handleClickStep_selected clicked s i
    have hch := handleClickStep_changed clicked s i
    constructor
    · intro hne
      by_cases hs : (s.handleClickStep clicked i).selected = s.selected
      · exact ih1 (hs ▸ hne)
      · apply ih2
        by_cases hc : i ≠ 0 ∧ clicked i = true
        · rw [if_pos hc] at hsel
          have hsi : s.selected ≠ i := fun h => hs (hsel.trans h.symm)
          rw [hch, if_pos ⟨hc.1, hc.2, hsi⟩]
        · rw [if_neg hc] at hsel
          exact absurd hsel hs
    · intro hc
      apply ih2
      rw [hch]
      split
      · rfl
      · exact hc

/-- Over indices whose buttons report no click the loop keeps the selected
index and the changed flag. -/
theorem handleClickLoop_quiet (clicked : Nat → Bool) (l : List Nat) (s : SwitchButtonText)
    (hq : ∀ a ∈ l, ¬ (a ≠ 0 ∧ clicked a = true)) :
    (l.foldl (SwitchButtonText.handleClickStep clicked) s).selected = s.selected ∧
      (l.foldl (SwitchButtonText.handleClickStep clicked) s).changed = s.changed := by
  induction l generalizing s with
  | nil => exact ⟨rfl, rfl⟩
  | cons i rest ih =>
    rw [List.foldl_cons]
    obtain ⟨ih1, ih2⟩ := ih (s.handleClickStep clicked i)
      (fun a ha => hq a (List.mem_cons_of_mem _ ha))
    have hi := hq i (List.mem_cons_self _ _)
    have hi2 : ¬ (i ≠ 0 ∧ clicked i = true ∧ s.selected ≠ i) := fun h => hi ⟨h.1, h.2.1⟩
    rw [ih1, ih2, handleClickStep_selected, handleClickStep_changed, if_neg hi, if_neg hi2]
    exact ⟨rfl, rfl⟩

/-- When at most one of the visited buttons reports a click and the flag was
clear, the loop raises the flag only by moving the selection. -/
theorem handleClickLoop_single (clicked : Nat → Bool) (l : List Nat) (s : SwitchButtonText)
    (hnd : l.Nodup) (hc : s.changed = false)
    (hone : ∀ a b, a ∈ l → b ∈ l → a ≠ 0 → b ≠ 0 → clicked a = true → clicked b = true →
      a = b)
    (hch : (l.foldl (SwitchButtonText.handleClickStep clicked) s).changed = true) :
    (l.foldl (SwitchButtonText.handleClickStep clicked) s).selected ≠ s.selected := by
  induction l generalizing s with
  | nil => rw [List.foldl_nil] at hch; rw [hc] at hch; exact absurd hch (by simp)
  | cons i rest ih =>
    rw [List.foldl_cons] at hch ⊢
    obtain ⟨hi, hrest⟩ := List.nodup_cons.1 hnd
    by_cases hcl : i ≠ 0 ∧ clicked i = true
    · have hq : ∀ a ∈ rest, ¬ (a ≠ 0 ∧ clicked a = true) := by
        intro a ha hca
        have : a = i := hone a i (List.mem_cons_of_mem _ ha) (List.mem_cons_self _ _)
          hca.1 hcl.1 hca.2 hcl.2
        exact hi (this ▸ ha)
      obtain ⟨q1, q2⟩ := handleClickLoop_quiet clicked rest (s.handleClickStep clicked i) hq
      rw [q2, handleClickStep_changed] at hch
      rw [q1, handleClickStep_selected, if_pos hcl]
      by_cases hsi : s.selected = i
      · rw [if_neg (fun h => h.2.2 hsi), hc] at hch
        exact absurd hch (by simp)
      · exact fun h => hsi h.symm
    · have hs1 : (s.handleClickStep clicked i).selected = s.selected := by
        rw [handleClickStep_selected, if_neg hcl]
      have hc1 : (s.handleClickStep clicked i).changed = false := by
        rw [handleClickStep_changed, if_neg (fun h => hcl ⟨h.1, h.2.1⟩), hc]
      have := ih (s.handleClickStep clicked i) hrest hc1
        (fun a b ha hb => hone a b (List.mem_cons_of_mem _ ha) (List.mem_cons_of_mem _ hb)) hch
      rw [hs1] at this
      exact this

/-- A click pass keeps the labels of the slice, and keeps the selected index
within `1 .. n` on a slice of `n + 1` items. -/
theorem handleClickEvent_invariant (clicked : Nat → Bool) (n : Nat) (s : SwitchButtonText)
    (hlen : s.items.length = n + 1) (h1 : 1 ≤ s.selected) (h2 : s.selected ≤ n) :
    (s.handleClickEvent clicked).items.length = n + 1 ∧
    (s.handleClickEvent clicked).items.map (fun it => it.Text) =
      s.items.map (fun it => it.Text) ∧
    1 ≤ (s.handleClickEvent clicked).selected ∧ (s.handleClickEvent clicked).selected ≤ n := by
  unfold SwitchButtonText.handleClickEvent
  have hr := handleClickLoop_selected_range clicked (n + 1) (List.range s.items.length) s
    (fun i hi => by rw [hlen] at hi; exact List.mem_range.1 hi) h1 (Nat.lt_succ_of_le h2)
  exact ⟨by rw [handleClickLoop_length, hlen], handleClickLoop_text _ _ _, hr.1,
    Nat.le_of_lt_succ hr.2⟩

/-- The invariant of `handleClickEvent_invariant` along a sequence of passes. -/
theorem handleClickEvents_invariant (passes : List (Nat → Bool)) (n : Nat)
    (s : SwitchButtonText)
    (hlen : s.items.length = n + 1) (h1 : 1 ≤ s.selected) (h2 : s.selected ≤ n) :
    (s.handleClickEvents passes).items.map (fun it => it.Text) =
      s.items.map (fun it => it.Text) ∧
    1 ≤ (s.handleClickEvents passes).selected ∧ (s.handleClickEvents passes).selected ≤ n := by
  induction passes generalizing s with
  | nil => exact ⟨rfl, h1, h2⟩
  | cons clicked rest ih =>
    obtain ⟨a, b, c, d⟩ := handleClickEvent_invariant clicked n s hlen h1 h2
    have := ih (s.handleClickEvent clicked) a c d
    unfold SwitchButtonText.handleClickEvents at this ⊢
    rw [List.foldl_cons]
    exact ⟨this.1.trans b, this.2⟩

/-- The labels of the slice built by the constructor: the zero item's empty
label, then the labels of the input items. -/
theorem SwitchButtonText_text (t : Theme) (i : List SwitchItem) :
    (Theme.SwitchButtonText t i).items.map (fun it => it.Text) =
      "" :: i.map (fun it => it.Text) := by
  simp [Theme.SwitchButtonText, SwitchItem.zero, switchButton, Function.comp_def]

/-- C7: for a non-empty input list of `n` items and any finite sequence of
click passes, each with any set of buttons reporting a click, the selected
index is 1 right after construction and lies in `1 .. n` after the passes, and
`SelectedOption` indexes in range and returns the `Text` of the input item at
position `SelectedIndex() - 1`. -/
theorem SwitchButtonText_selection_invariant (t : Theme) (i : List SwitchItem) (hne : i ≠ [])
    (passes : List (Nat → Bool)) :
    (Theme.SwitchButtonText t i).SelectedIndex = 1 ∧
    1 ≤ ((Theme.SwitchButtonText t i).handleClickEvents passes).SelectedIndex ∧
    ((Theme.SwitchButtonText t i).handleClickEvents passes).SelectedIndex ≤ i.length ∧
    ((Theme.SwitchButtonText t i).handleClickEvents passes).SelectedOption.isSome = true ∧
    ((Theme.SwitchButtonText t i).handleClickEvents passes).SelectedOption =
      i[((Theme.SwitchButtonText t i).handleClickEvents passes).SelectedIndex - 1]?.map
        (fun it => it.Text) := by
  have hpos : 1 ≤ i.length := Nat.one_le_iff_ne_zero.2 (fun h => hne (List.length_eq_zero.1 h))
  have hlen : (Theme.SwitchButtonText t i).items.length = i.length + 1 := by
    simp [Theme.SwitchButtonText]
  have hsel : (Theme.SwitchButtonText t i).selected = 1 := by
    simp [Theme.SwitchButtonText]
  obtain ⟨htxt, h1, h2⟩ := handleClickEvents_invariant passes i.length
    (Theme.SwitchButtonText t i) hlen (by rw [hsel]) (by rw [hsel]; exact hpos)
  rw [SwitchButtonText_text] at htxt
  have hopt : ((Theme.SwitchButtonText t i).handleClickEvents passes).SelectedOption =
      i[((Theme.SwitchButtonText t i).handleClickEvents passes).selected - 1]?.map
        (fun it => it.Text) := by
    unfold SwitchButtonText.SelectedOption
    rw [← List.getElem?_map, htxt, ← List.getElem?_map]
    obtain ⟨k, hk⟩ := Nat.exists_eq_add_of_le h1
    rw [hk]
    simp [Nat.add_comm 1 k]
  refine ⟨hsel, h1, h2, ?_, hopt⟩
  rw [hopt, Option.isSome_map']
  rw [List.getElem?_eq_getElem (by omega)]
  rfl

/-- Witness of C7 on the two sample items and one pass in which both buttons
report a click. -/
theorem SwitchButtonText_selection_invariant_witness :
    sampleItems ≠ [] ∧
    ((Theme.SwitchButtonText sampleTheme sampleItems).handleClickEvents
      [fun _ => true]).SelectedOption = some "Manual" := by
  refine ⟨by decide, ?_⟩
  have h := (SwitchButtonText_selection_invariant sampleTheme sampleItems (by decide)
    [fun _ => true]).2.2.2.2
  rw [h]
  rfl

theorem setButtonColors_get_other (items : List SwitchItem) (index m : Nat) (bg col : NRGBA)
    (hm : m ≠ index) : (setButtonColors items index bg col)[m]? = items[m]? := by
  unfold setButtonColors
  split
  · rw [List.getElem?_set_ne (Ne.symm hm)]
  · rfl

theorem setButtonColors_get_self (items : List SwitchItem) (index : Nat) (bg col : NRGBA)
    (hlt : index < items.length) :
    (setButtonColors items index bg col)[index]?.map
      (fun it => (it.button.Background, it.button.Color)) = some (bg, col) := by
  unfold setButtonColors
  rw [List.getElem?_eq_getElem hlt]
  simp [hlt]

/-- One iteration of the click loop never touches the colour fields of the
switch itself. -/
theorem handleClickStep_palette (clicked : Nat → Bool) (s : SwitchButtonText) (index : Nat) :
    (s.handleClickStep clicked index).Active = s.Active ∧
    (s.handleClickStep clicked index).ActiveTextColor = s.ActiveTextColor ∧
    (s.handleClickStep clicked index).Inactive = s.Inactive ∧
    (s.handleClickStep clicked index).InactiveTextColor = s.InactiveTextColor := by
  unfold SwitchButtonText.handleClickStep
  dsimp only
  split_ifs <;> exact ⟨rfl, rfl, rfl, rfl⟩

theorem handleClickLoop_palette (clicked : Nat → Bool) (l : List Nat) (s : SwitchButtonText) :
    (l.foldl (SwitchButtonText.handleClickStep clicked) s).Active = s.Active ∧
    (l.foldl (SwitchButtonText.handleClickStep clicked) s).ActiveTextColor =
      s.ActiveTextColor ∧
    (l.foldl (SwitchButtonText.handleClickStep clicked) s).Inactive = s.Inactive ∧
    (l.foldl (SwitchButtonText.handleClickStep clicked) s).InactiveTextColor =
      s.InactiveTextColor := by
  induction l generalizing s with
  | nil => exact ⟨rfl, rfl, rfl, rfl⟩
  | cons i rest ih =>
    rw [List.foldl_cons]
    obtain ⟨a, b, c, d⟩ := ih (s.handleClickStep clicked i)
    obtain ⟨a1, b1, c1, d1⟩ := handleClickStep_palette clicked s i
    exact ⟨a.trans a1, b.trans b1, c.trans c1, d.trans d1⟩

/-- The iteration for `index` repaints the button of `index` and no other:
active when `index` is the selected index at that moment, inactive
otherwise. -/
theorem handleClickStep_items_eq (clicked : Nat → Bool) (s : SwitchButtonText) (index : Nat) :
    (s.handleClickStep clicked index).items =
      if (s.handleClickStep clicked index).selected = index
        then setButtonColors s.items index s.Active s.ActiveTextColor
        else setButtonColors s.items index s.Inactive s.InactiveTextColor := by
  rw [handleClickStep_selected]
  unfold SwitchButtonText.handleClickStep
  dsimp only
  split_ifs <;> simp_all

theorem handleClickStep_get_other (clicked : Nat → Bool) (s : SwitchButtonText)
    (index m : Nat) (hm : m ≠ index) :
    (s.handleClickStep clicked index).items[m]? = s.items[m]? := by
  rw [handleClickStep_items_eq]
  split <;> exact setButtonColors_get_other _ _ _ _ _ hm

theorem handleClickStep_get_self (clicked : Nat → Bool) (s : SwitchButtonText) (index : Nat)
    (hlt : index < s.items.length) :
    (s.handleClickStep clicked index).items[index]?.map
        (fun it => (it.button.Background, it.button.Color)) =
      some (if (s.handleClickStep clicked index).selected = index
        then (s.Active, s.ActiveTextColor) else (s.Inactive, s.InactiveTextColor)) := by
  rw [handleClickStep_items_eq]
  split <;> exact setButtonColors_get_self _ _ _ _ hlt

/-- The colours of button `k` after the loop has run over `0 .. m-1`: they are
the ones painted by the iteration for `k`, which sees the selection left by
the iterations before it. -/
theorem handleClickLoop_get (clicked : Nat → Bool) (s : SwitchButtonText) (m : Nat)
    (hm : m ≤ s.items.length) (k : Nat) (hk : k < m) :
    ((List.range m).foldl (SwitchButtonText.handleClickStep clicked) s).items[k]?.map
        (fun it => (it.button.Background, it.button.Color)) =
      some (if (((List.range k).foldl (SwitchButtonText.handleClickStep clicked)
          s).handleClickStep clicked k).selected = k
        then (s.Active, s.ActiveTextColor) else (s.Inactive, s.InactiveTextColor)) := by
  induction m with
  | zero => exact absurd hk (Nat.not_lt_zero k)
  | succ m ih =>
    rw [List.range_succ, List.foldl_append, List.foldl_cons, List.foldl_nil]
    by_cases hkm : k = m
    · subst hkm
      obtain ⟨a, b, c, d⟩ := handleClickLoop_palette clicked (List.range k) s
      rw [handleClickStep_get_self clicked _ k
        (by rw [handleClickLoop_length]; exact hm), a, b, c, d]
    · rw [handleClickStep_get_other clicked _ m k hkm]
      exact ih (Nat.le_of_succ_le hm) (by omega)

/-- The selection and the changed flag after the loop has run over `0 .. m-1`
when only the button of option `i` reports a click. -/
theorem handleClickLoop_only (s : SwitchButtonText) (i : Nat) (hi : 1 ≤ i) (m : Nat) :
    ((List.range m).foldl (SwitchButtonText.handleClickStep (fun index => index == i))
        s).selected = (if i < m then i else s.selected) ∧
    ((List.range m).foldl (SwitchButtonText.handleClickStep (fun index => index == i))
        s).changed = (if i < m ∧ s.selected ≠ i then true else s.changed) := by
  induction m with
  | zero => simp
  | succ m ih =>
    rw [List.range_succ, List.foldl_append, List.foldl_cons, List.foldl_nil,
      handleClickStep_selected, handleClickStep_changed, ih.1, ih.2]
    by_cases hmi : m = i
    · subst hmi
      have h0 : m ≠ 0 := by omega
      simp [h0]
    · have h1 : ¬ (i < m + 1 ∧ ¬ i < m) := by omega
      by_cases hlt : i < m
      · have h2 : i < m + 1 := by omega
        simp [hmi, hlt, h2]
      · have h2 : ¬ i < m + 1 := by omega
        simp [hmi, hlt, h2]

/-- What one click pass does when option `j` is selected and only the button
of another option `i` reports a click: option `i` becomes selected, the changed
flag is raised, and button `k` ends up active exactly when `k = i`, or when
`k = j` and `j` comes before `i` in the slice. -/
theorem handleClickEvent_only (s : SwitchButtonText) (i j : Nat) (hi : 1 ≤ i)
    (hlt : i < s.items.length) (hj : s.selected = j) (hij : i ≠ j) :
    (s.handleClickEvent (fun index => index == i)).selected = i ∧
    (s.handleClickEvent (fun index => index == i)).changed = true ∧
    ∀ k, k < s.items.length →
      (s.handleClickEvent (fun index => index == i)).items[k]?.map
          (fun it => (it.button.Background, it.button.Color)) =
        some (if k = i ∨ (k = j ∧ j < i)
          then (s.Active, s.ActiveTextColor) else (s.Inactive, s.InactiveTextColor)) := by
  unfold SwitchButtonText.handleClickEvent
  obtain ⟨h1, h2⟩ := handleClickLoop_only s i hi s.items.length
  refine ⟨by rw [h1, if_pos hlt], ?_, fun k hk => ?_⟩
  · rw [h2, if_pos ⟨hlt, fun h => hij (hj ▸ h).symm⟩]
  · rw [handleClickLoop_get _ s s.items.length (Nat.le_refl _) k hk, handleClickStep_selected,
      (handleClickLoop_only s i hi k).1, hj]
    congr 1
    by_cases hki : k = i
    · subst hki
      have h0 : k ≠ 0 := by omega
      simp [h0]
    · by_cases hik : i < k
      · have h3 : ¬ (k = j ∧ j < i) := by omega
        have h4 : i ≠ k := fun h => hki h.symm
        simp [hki, hik, h3, h4]
      · by_cases hkj : k = j
        · subst hkj
          have h3 : k < i := by omega
          simp [hki, hik, h3]
        · have h4 : j ≠ k := fun h => hkj h.symm
          simp [hki, hik, hkj, h4]

/-- C8, the code at the failing input: on the sample switch with option 1
selected and shown active, a pass in which only the button of option 2 reports
a click selects option 2, raises the changed flag and paints option 2 active,
but leaves the button of option 1 in the active colours, which differ from the
inactive ones. -/
theorem handleClickEvent_keeps_earlier_active :
    sampleSwitch.SelectedIndex = 1 ∧
    (sampleSwitch.handleClickEvent (fun index => index == 2)).SelectedIndex = 2 ∧
    (sampleSwitch.handleClickEvent (fun index => index == 2)).changed = true ∧
    (sampleSwitch.handleClickEvent (fun index => index == 2)).items[2]?.map
        (fun it => (it.button.Background, it.button.Color)) =
      some (sampleSwitch.Active, sampleSwitch.ActiveTextColor) ∧
    (sampleSwitch.handleClickEvent (fun index => index == 2)).items[1]?.map
        (fun it => (it.button.Background, it.button.Color)) =
      some (sampleSwitch.Active, sampleSwitch.ActiveTextColor) ∧
    sampleSwitch.Active ≠ sampleSwitch.Inactive ∧
    sampleSwitch.ActiveTextColor ≠ sampleSwitch.InactiveTextColor := by
  refine ⟨rfl, rfl, rfl, rfl, rfl, by decide, by decide⟩

/-- C9: `Changed` returns the current changed flag and leaves the flag false
without touching the selected index or the items; so after a click pass that
moved the selection the first `Changed` returns true, and any further
`Changed` without a click pass in between returns false. -/
theorem Changed_one_shot (s : SwitchButtonText) :
    s.Changed.1 = s.changed ∧
    s.Changed.2.changed = false ∧
    s.Changed.2.selected = s.selected ∧
    s.Changed.2.items = s.items ∧
    (∀ clicked : Nat → Bool, (s.handleClickEvent clicked).selected ≠ s.selected →
      (s.handleClickEvent clicked).Changed.1 = true) ∧
    (∀ k : Nat, ((fun st => (SwitchButtonText.Changed st).2)^[k + 1] s).Changed.1 = false) := by
  refine ⟨rfl, rfl, rfl, rfl, fun clicked h => ?_, fun k => ?_⟩
  · exact (handleClickLoop_changed clicked _ s).1 h
  · rw [Function.iterate_succ_apply']
    rfl

/-- Counterexample to C10: on the sample switch with option 2 selected and the
changed flag clear, a pass in which both buttons report a click leaves option
2 selected, and yet the next `Changed` returns true. -/
theorem handleClickEvent_changed_counterexample :
    sampleSwitchSecond.changed = false ∧
    (sampleSwitchSecond.handleClickEvent (fun _ => true)).SelectedIndex =
      sampleSwitchSecond.SelectedIndex ∧
    (sampleSwitchSecond.handleClickEvent (fun _ => true)).Changed.1 = true := by
  refine ⟨rfl, rfl, rfl⟩

/-- C10, amended: for a switch whose changed flag is clear and any click pass,
the next `Changed` returns true whenever the selected index after the pass
differs from the one before it; and when at most one item button reports a
click in the pass, it returns true only then. -/
theorem handleClickEvent_changed_iff (s : SwitchButtonText) (clicked : Nat → Bool)
    (hc : s.changed = false) :
    ((s.handleClickEvent clicked).SelectedIndex ≠ s.SelectedIndex →
      (s.handleClickEvent clicked).Changed.1 = true) ∧
    ((∀ a b, a ≠ 0 → b ≠ 0 → a < s.items.length → b < s.items.length →
        clicked a = true → clicked b = true → a = b) →
      ((s.handleClickEvent clicked).Changed.1 = true ↔
        (s.handleClickEvent clicked).SelectedIndex ≠ s.SelectedIndex)) := by
  have hmove : (s.handleClickEvent clicked).SelectedIndex ≠ s.SelectedIndex →
      (s.handleClickEvent clicked).Changed.1 = true :=
    fun h => (handleClickLoop_changed clicked _ s).1 h
  refine ⟨hmove, fun hone => ⟨fun hch => ?_, hmove⟩⟩
  exact handleClickLoop_single clicked (List.range s.items.length) s (List.nodup_range _) hc
    (fun a b ha hb ha0 hb0 => hone a b ha0 hb0 (List.mem_range.1 ha) (List.mem_range.1 hb)) hch

/-- Witness of the amended C10: on the sample switch with option 1 selected, a
pass in which only the button of option 2 reports a click makes the next
`Changed` return true. -/
theorem handleClickEvent_changed_iff_witness :
    sampleSwitch.changed = false ∧
    (sampleSwitch.handleClickEvent (fun index => index == 2)).Changed.1 = true :=
  ⟨rfl, (handleClickEvent_changed_iff sampleSwitch (fun index => index == 2) rfl).1
    (by decide)⟩

/-! ## Theorems about `ListPreferenceModal` -/

/-- C11: when the radio group holds the value `v` and reports one change, the
cancel button and the backdrop report nothing and an update function is set,
`Handle` completes, sets `currentValue` to `v`, writes `v` under the
preference key, and makes exactly these calls in this order: one
`SaveUserConfigValue(preferenceKey, v)`, one call of the update function, the
theme refresh, and one `Dismiss`. -/
theorem ListPreferenceModal_Handle_selection (inp : PreferenceInput) (w : ConfigStore)
    (lp : ListPreferenceModal) (v : String)
    (hv : lp.optionsRadioGroup.Value = v) (hr : inp.radioChanged = 1)
    (hc : inp.cancelClicked = 0) (hb : inp.BackdropClicked true = false)
    (hu : lp.updateButtonClicked = true) :
    lp.Handle inp w =
      some ({ lp with currentValue := v }, w.SaveUserConfigValue lp.preferenceKey v,
        [PreferenceEffect.SaveUserConfigValue lp.preferenceKey v,
          PreferenceEffect.updateButtonClicked, PreferenceEffect.RefreshTheme,
          PreferenceEffect.Dismiss]) := by
  subst hv
  unfold ListPreferenceModal.Handle
  rw [hr, hc, hb]
  simp [ListPreferenceModal.handleChanged, hu]

/-- Witness of C11: preference key "prefKey", initial value "k1" read on
resume, then "k2" selected. -/
theorem ListPreferenceModal_Handle_selection_witness :
    ({ (samplePreference.OnResume emptyStore).1 with optionsRadioGroup := ⟨"k2"⟩ }).Handle
        oneChange emptyStore =
      some ({ (samplePreference.OnResume emptyStore).1 with
          optionsRadioGroup := ⟨"k2"⟩, currentValue := "k2" },
        emptyStore.SaveUserConfigValue "prefKey" "k2",
        [PreferenceEffect.SaveUserConfigValue "prefKey" "k2",
          PreferenceEffect.updateButtonClicked, PreferenceEffect.RefreshTheme,
          PreferenceEffect.Dismiss]) :=
  ListPreferenceModal_Handle_selection oneChange emptyStore
    { (samplePreference.OnResume emptyStore).1 with optionsRadioGroup := ⟨"k2"⟩ } "k2"
    rfl rfl rfl rfl rfl

/-- C12: `OnResume` sets `currentValue`, `initialValue` and the radio group's
value all to the string stored under the preference key when that string is
non-empty and all to the default value when the store returns the empty
string, and hands the store back unchanged. -/
theorem OnResume_reads_store (w : ConfigStore) (lp : ListPreferenceModal) :
    (lp.OnResume w).1.currentValue =
      (if w.ReadStringConfigValueForKey lp.preferenceKey = "" then lp.defaultValue
        else w.ReadStringConfigValueForKey lp.preferenceKey) ∧
    (lp.OnResume w).1.initialValue = (lp.OnResume w).1.currentValue ∧
    (lp.OnResume w).1.optionsRadioGroup.Value = (lp.OnResume w).1.currentValue ∧
    (lp.OnResume w).2 = w := by
  unfold ListPreferenceModal.OnResume
  by_cases h : w.ReadStringConfigValueForKey lp.preferenceKey = "" <;> simp [h]

/-- Counterexample to C13: with the keys "k2" and "k1", the default "zz" and an
empty store, the state reached from `NewListPreference` by one `OnResume` has
the current value "zz", which is neither empty nor a key of the map. -/
theorem currentValue_counterexample :
    ∃ fin,
      ListPreferenceModal.run (NewListPreference "prefKey" "zz" samplePreferenceItems,
        emptyStore) [PreferenceOp.OnResume] = some fin ∧
      fin.1.currentValue = "zz" ∧ fin.1.currentValue ≠ "" ∧
      fin.1.currentValue ∉ samplePreferenceItems.map Prod.fst :=
  ⟨_, rfl, rfl, by decide, by decide⟩

/-- What the first loop of `Handle` can change: the current value, to the value
of the radio group, and the value stored under the preference key, to the
same. -/
theorem handleChanged_fields (n : Nat) (w : ConfigStore) (lp : ListPreferenceModal)
    (r : ListPreferenceModal × ConfigStore × List PreferenceEffect)
    (h : lp.handleChanged n w = some r) :
    r.1.defaultValue = lp.defaultValue ∧ r.1.preferenceKey = lp.preferenceKey ∧
    r.1.optionsRadioGroup = lp.optionsRadioGroup ∧
    (r.1.currentValue = lp.currentValue ∨ r.1.currentValue = lp.optionsRadioGroup.Value) ∧
    (r.2.1 lp.preferenceKey = w lp.preferenceKey ∨
      r.2.1 lp.preferenceKey = lp.optionsRadioGroup.Value) := by
  induction n generalizing w lp r with
  | zero =>
    simp only [ListPreferenceModal.handleChanged, Option.some.injEq] at h
    subst h
    exact ⟨rfl, rfl, rfl, Or.inl rfl, Or.inl rfl⟩
  | succ n ih =>
    simp only [ListPreferenceModal.handleChanged] at h
    split at h
    · split at h
      · exact absurd h (by simp)
      · rename_i lp2 w2 effects hrec
        simp only [Option.some.injEq] at h
        subst h
        obtain ⟨a, b, c, d, e⟩ := ih _ _ _ hrec
        refine ⟨a, b, c, Or.inr ?_, Or.inr ?_⟩
        · rcases d with d | d <;> exact d
        · rcases e with e | e
          · rw [e]
            simp [ConfigStore.SaveUserConfigValue]
          · exact e
    · exact absurd h (by simp)

/-- The value that `OnResume` installs: the stored string, or the default when
the store has none. -/
theorem OnResume_value (w : ConfigStore) (lp : ListPreferenceModal) :
    (lp.OnResume w).1.currentValue =
      (if w lp.preferenceKey = "" then lp.defaultValue else w lp.preferenceKey) ∧
    (lp.OnResume w).1.optionsRadioGroup.Value = (lp.OnResume w).1.currentValue := by
  unfold ListPreferenceModal.OnResume ConfigStore.ReadStringConfigValueForKey
  by_cases h : w lp.preferenceKey = "" <;> simp [h]

/-- One operation keeps `PreferenceInvariant`, and `OnResume` switches its
`resumed` part on, as long as the toolkit selects keys only. -/
theorem step_invariant (keys : List String) (resumed : Bool)
    (st st1 : ListPreferenceModal × ConfigStore) (op : PreferenceOp)
    (hinv : PreferenceInvariant keys resumed st)
    (hsel : ∀ v, op = PreferenceOp.radioSelect v → v ∈ keys)
    (hstep : ListPreferenceModal.step st op = some st1) :
    PreferenceInvariant keys (resumed || op.isOnResume) st1 := by
  obtain ⟨hd, hc, hr, hw, hres⟩ := hinv
  cases op with
  | UpdateValues =>
    simp only [ListPreferenceModal.step, Option.some.injEq] at hstep
    subst hstep
    exact ⟨hd, hc, hr, hw, fun h => hres (by simpa [PreferenceOp.isOnResume] using h)⟩
  | OnResume =>
    simp only [ListPreferenceModal.step, Option.some.injEq] at hstep
    subst hstep
    have hv : (st.1.OnResume st.2).1.currentValue ∈ keys := by
      rw [(OnResume_value st.2 st.1).1]
      split
      · exact hd
      · rename_i hne
        exact hw.resolve_left hne
    have hrv : (st.1.OnResume st.2).1.optionsRadioGroup.Value ∈ keys := by
      rw [(OnResume_value st.2 st.1).2]
      exact hv
    exact ⟨hd, Or.inr hv, Or.inr hrv, hw, fun _ => ⟨hv, hrv⟩⟩
  | Handle inp =>
    simp only [ListPreferenceModal.step, ListPreferenceModal.Handle] at hstep
    cases hch : st.1.handleChanged inp.radioChanged st.2 with
    | none => rw [hch] at hstep; exact absurd hstep (by simp)
    | some r =>
      rw [hch] at hstep
      simp only [Option.map_some', Option.some.injEq] at hstep
      subst hstep
      obtain ⟨a, b, c, d, e⟩ := handleChanged_fields _ _ _ _ hch
      refine ⟨by rw [a]; exact hd, ?_, by rw [c]; exact hr, ?_, fun h => ?_⟩
      · rcases d with d | d
        · rw [d]; exact hc
        · rw [d]; exact hr
      · show r.2.1 r.1.preferenceKey = "" ∨ r.2.1 r.1.preferenceKey ∈ keys
        rw [b]
        rcases e with e | e
        · rw [e]; exact hw
        · rw [e]; exact hr
      · have hres1 := hres (by simpa [PreferenceOp.isOnResume] using h)
        refine ⟨?_, by rw [c]; exact hres1.2⟩
        rcases d with d | d
        · rw [d]; exact hres1.1
        · rw [d]; exact hres1.2
  | radioSelect v =>
    simp only [ListPreferenceModal.step, Option.some.injEq] at hstep
    subst hstep
    have hv := hsel v rfl
    exact ⟨hd, hc, Or.inr hv, hw,
      fun h => ⟨(hres (by simpa [PreferenceOp.isOnResume] using h)).1, hv⟩⟩

/-- A run keeps `PreferenceInvariant`; its `resumed` part holds at the end when
it held at the start or the run contains an `OnResume`. -/
theorem run_invariant (keys : List String) (ops : List PreferenceOp) (resumed : Bool)
    (st fin : ListPreferenceModal × ConfigStore)
    (hinv : PreferenceInvariant keys resumed st)
    (hsel : ∀ v, PreferenceOp.radioSelect v ∈ ops → v ∈ keys)
    (hrun : ListPreferenceModal.run st ops = some fin) :
    PreferenceInvariant keys (resumed || ops.any PreferenceOp.isOnResume) fin := by
  induction ops generalizing resumed st with
  | nil =>
    simp only [ListPreferenceModal.run, Option.some.injEq] at hrun
    subst hrun
    simpa using hinv
  | cons op ops ih =>
    simp only [ListPreferenceModal.run] at hrun
    cases hst : ListPreferenceModal.step st op with
    | none => rw [hst] at hrun; exact absurd hrun (by simp)
    | some st1 =>
      rw [hst] at hrun
      have h1 := step_invariant keys resumed st st1 op hinv
        (fun v hv => hsel v (hv ▸ List.mem_cons_self _ _)) hst
      have h2 := ih (resumed || op.isOnResume) st1 h1
        (fun v hv => hsel v (List.mem_cons_of_mem _ hv)) hrun
      rw [List.any_cons, ← Bool.or_assoc]
      exact h2

/-- C13, amended: when the default value is a key of the items map, the value
initially stored under the preference key is empty or a key, and the radio
group is only ever set to keys, then in every state reached from
`NewListPreference` by `UpdateValues`, `OnResume`, `Handle` and radio
selections the current value is the empty string or a key of the map, and it
is a key once the run contains an `OnResume`. -/
theorem currentValue_invariant (preferenceKey defaultValue : String)
    (items : List (String × String)) (w : ConfigStore) (ops : List PreferenceOp)
    (fin : ListPreferenceModal × ConfigStore)
    (hd : defaultValue ∈ items.map Prod.fst)
    (hw : w preferenceKey = "" ∨ w preferenceKey ∈ items.map Prod.fst)
    (hsel : ∀ v, PreferenceOp.radioSelect v ∈ ops → v ∈ items.map Prod.fst)
    (hrun : ListPreferenceModal.run (NewListPreference preferenceKey defaultValue items, w)
      ops = some fin) :
    (fin.1.currentValue = "" ∨ fin.1.currentValue ∈ items.map Prod.fst) ∧
    (ops.any PreferenceOp.isOnResume = true → fin.1.currentValue ∈ items.map Prod.fst) := by
  have hinit : PreferenceInvariant (items.map Prod.fst) false
      (NewListPreference preferenceKey defaultValue items, w) :=
    ⟨hd, Or.inl rfl, Or.inl rfl, hw, fun h => absurd h (by simp)⟩
  have hfin := run_invariant _ ops false _ fin hinit hsel hrun
  rw [Bool.false_or] at hfin
  exact ⟨hfin.2.1, fun h => (hfin.2.2.2.2 h).1⟩

/-- Witness of the amended C13: keys "k2" and "k1", default "k1", an empty
store, and the run `UpdateValues`, `OnResume`, selection of "k2", `Handle` with
one reported change; the run ends with the current value "k2". -/
theorem currentValue_invariant_witness :
    ∃ fin,
      ListPreferenceModal.run (NewListPreference "prefKey" "k1" samplePreferenceItems,
        emptyStore)
        [PreferenceOp.UpdateValues, PreferenceOp.OnResume, PreferenceOp.radioSelect "k2",
          PreferenceOp.Handle oneChange] = some fin ∧
      fin.1.currentValue = "k2" ∧
      fin.1.currentValue ∈ samplePreferenceItems.map Prod.fst := by
  refine ⟨_, rfl, rfl, ?_⟩
  exact (currentValue_invariant "prefKey" "k1" samplePreferenceItems emptyStore
    [PreferenceOp.UpdateValues, PreferenceOp.OnResume, PreferenceOp.radioSelect "k2",
      PreferenceOp.Handle oneChange] _ (by decide) (Or.inl rfl)
    (fun v hv => by
      simp only [List.mem_cons, List.mem_singleton, PreferenceOp.radioSelect.injEq,
        reduceCtorEq, false_or, or_false, List.not_mem_nil] at hv
      subst hv
      decide) rfl).2 rfl

/-- The loop over the map in `NewListPreference` collects the keys in the
order in which the entries are visited. -/
theorem collectKeys_eq (items : List (String × String)) (acc : List String) :
    items.foldl (fun keys kv => keys ++ [kv.1]) acc = acc ++ items.map Prod.fst := by
  induction items generalizing acc with
  | nil => simp
  | cons kv rest ih => rw [List.foldl_cons, ih]; simp

theorem itemKeys_eq (preferenceKey defaultValue : String) (items : List (String × String)) :
    (NewListPreference preferenceKey defaultValue items).itemKeys =
      (items.map Prod.fst).insertionSort (fun a b => a ≤ b) := by
  simp [NewListPreference, sortSlice, collectKeys_eq]

/-- The loop of `layoutItems` appends one radio item per element of
`itemKeys`. -/
theorem layoutItems_loop (env : PreferenceEnv) (items : List (String × String))
    (keys : List String) (acc : List RadioItem) :
    (keys.foldl
        (fun out k =>
          out ++ [(⟨k, env.valuesString ((items.lookup k).getD ""), env.DeepBlue,
            env.Primary⟩ : RadioItem)])
        acc).map RadioItem.key = acc.map RadioItem.key ++ keys := by
  induction keys generalizing acc with
  | nil => simp
  | cons k rest ih => rw [List.foldl_cons, ih]; simp

/-- C14: for a map with pairwise distinct keys, `itemKeys` is strictly
ascending in string order and is a rearrangement of the keys of the map, so it
holds every key exactly once and nothing else; it is the same list for every
order in which the map is visited; and `layoutItems` builds exactly one radio
item per element of `itemKeys`, in that order. -/
theorem NewListPreference_itemKeys (env : PreferenceEnv) (preferenceKey defaultValue : String)
    (items : List (String × String)) (hnd : (items.map Prod.fst).Nodup) :
    (NewListPreference preferenceKey defaultValue items).itemKeys.Sorted (fun a b => a < b) ∧
    (NewListPreference preferenceKey defaultValue items).itemKeys.Perm (items.map Prod.fst) ∧
    (∀ k, (NewListPreference preferenceKey defaultValue items).itemKeys.count k =
      if k ∈ items.map Prod.fst then 1 else 0) ∧
    (∀ visited : List (String × String), visited.Perm items →
      (NewListPreference preferenceKey defaultValue visited).itemKeys =
        (NewListPreference preferenceKey defaultValue items).itemKeys) ∧
    ((NewListPreference preferenceKey defaultValue items).layoutItems env).map RadioItem.key =
      (NewListPreference preferenceKey defaultValue items).itemKeys := by
  have hperm := List.perm_insertionSort (fun a b : String => a ≤ b) (items.map Prod.fst)
  have hsorted := List.sorted_insertionSort (fun a b : String => a ≤ b) (items.map Prod.fst)
  have hnd1 : ((items.map Prod.fst).insertionSort (fun a b => a ≤ b)).Nodup :=
    hperm.nodup_iff.2 hnd
  refine ⟨?_, ?_, fun k => ?_, fun visited hv => ?_, ?_⟩
  · rw [itemKeys_eq]
    exact hsorted.lt_of_le hnd1
  · rw [itemKeys_eq]
    exact hperm
  · rw [itemKeys_eq, hperm.count_eq]
    split
    · rename_i hk
      exact List.count_eq_one_of_mem hnd hk
    · rename_i hk
      exact List.count_eq_zero_of_not_mem hk
  · rw [itemKeys_eq, itemKeys_eq]
    have hkeys : (visited.map Prod.fst).Perm (items.map Prod.fst) := hv.map Prod.fst
    exact List.eq_of_perm_of_sorted
      (((List.perm_insertionSort _ _).trans hkeys).trans hperm.symm)
      (List.sorted_insertionSort _ _) hsorted
  · unfold ListPreferenceModal.layoutItems
    rw [layoutItems_loop]
    simp

/-- Witness of C14 on the sample map, whose entries are visited as "k2", "k1":
the item keys and the radio items come out as "k1", "k2". -/
theorem NewListPreference_itemKeys_witness :
    (samplePreferenceItems.map Prod.fst).Nodup ∧
    (NewListPreference "prefKey" "k1" samplePreferenceItems).itemKeys = ["k1", "k2"] ∧
    ((NewListPreference "prefKey" "k1" samplePreferenceItems).layoutItems
      samplePreferenceEnv).map RadioItem.key = ["k1", "k2"] := by
  have h := NewListPreference_itemKeys samplePreferenceEnv "prefKey" "k1" samplePreferenceItems
    (by decide)
  have hle : ¬ (("k2" : String) ≤ "k1") := by
    rw [not_le, String.lt_iff_toList_lt]
    decide
  have hk : (NewListPreference "prefKey" "k1" samplePreferenceItems).itemKeys = ["k1", "k2"] := by
    rw [itemKeys_eq]
    simp [samplePreferenceItems, List.insertionSort, List.orderedInsert, hle]
  exact ⟨by decide, hk, h.2.2.2.2.trans hk⟩

/-! ## Theorems about `Switch` -/

/-- What `Layout` draws after `SetEnabled(value)`: the drawing context is
disabled exactly when `value` is true, and then the three colours have gone
through `Disabled`. -/
theorem SetEnabled_Layout (env : SwitchEnv) (s : Switch) (value : Bool) :
    ((s.SetEnabled value).Layout env).contextDisabled = value ∧
    ((s.SetEnabled value).Layout env).trackColor =
      (if s.IsChecked then
        (if value then env.Disabled s.style.ActiveColor else s.style.ActiveColor)
      else (if value then env.Disabled s.style.InactiveColor else s.style.InactiveColor)) ∧
    ((s.SetEnabled value).Layout env).thumbColor =
      (if value then env.Disabled s.style.ThumbColor else s.style.ThumbColor) := by
  cases value <;> cases hc : s.clk.Value <;>
    simp [Switch.Layout, Switch.SetEnabled, Switch.IsChecked, hc]

/-- C15, the code at the failing input: on an unchecked switch in the sample
style, after `SetEnabled(true)` `Layout` draws into the disabled context with
the track and thumb colours passed through `Disabled`, which differ from the
colours of the style; after `SetEnabled(false)` it draws into the enabled
context with the colours of the style. -/
theorem SetEnabled_inverted :
    (((Theme.Switch sampleStyle).SetEnabled true).Layout sampleSwitchEnv).contextDisabled =
      true ∧
    (((Theme.Switch sampleStyle).SetEnabled true).Layout sampleSwitchEnv).trackColor =
      sampleSwitchEnv.Disabled sampleStyle.InactiveColor ∧
    (((Theme.Switch sampleStyle).SetEnabled true).Layout sampleSwitchEnv).thumbColor =
      sampleSwitchEnv.Disabled sampleStyle.ThumbColor ∧
    sampleSwitchEnv.Disabled sampleStyle.InactiveColor ≠ sampleStyle.InactiveColor ∧
    sampleSwitchEnv.Disabled sampleStyle.ThumbColor ≠ sampleStyle.ThumbColor ∧
    (((Theme.Switch sampleStyle).SetEnabled false).Layout sampleSwitchEnv).contextDisabled =
      false ∧
    (((Theme.Switch sampleStyle).SetEnabled false).Layout sampleSwitchEnv).trackColor =
      sampleStyle.InactiveColor ∧
    (((Theme.Switch sampleStyle).SetEnabled false).Layout sampleSwitchEnv).thumbColor =
      sampleStyle.ThumbColor := by
  refine ⟨rfl, rfl, rfl, by decide, by decide, rfl, rfl, rfl⟩

end Godcr
